import Mathlib

/-!
# tier0 spew / assert dispatch (`public/tier0/spew.cpp`, `public/tier0/dbg.h`)

A shallow embedding of the spew functions of `spew.cpp` and of the assert
macros of `dbg.h`, followed by theorems about them.

Modelling conventions.

* `tchar` is `char`; a C string is the list of its characters before the
  terminating NUL, and a pointer into a string is the suffix it points at.
* The build is the Windows one: the spew types only exist under `_WIN32`
  (`dbg.h:643`), and `<windows.h>`, included there, defines `WIN32`.
* `pTempBuffer` is a list of 5020 cells, and the CRT functions that write it
  follow the documented behaviour of MSVC's `_snprintf`.
* The formatted data of a format string and its arguments is an input
  (`rendered`); only the two fixed formats of `spew.cpp` are rendered here.
* Process-wide statics are the fields of `World`; everything the process does
  to the outside is appended to `World.trace`.
* Functions that are declared but not defined in the two files
  (`Log_Assert`, `ShouldUseNewAssertDialog`, `DoNewAssertDialog`) are fields of
  `Platform`, as is the build flag `DBGFLAG_ASSERT`.
* `_ExitOnFatalAssert` has two overloads: the three-parameter one defined in
  `spew.cpp`, and the two-parameter one that `dbg.h` declares and the assert
  macros call, whose body is not in the files and is modelled from the
  specification, as are `SpewActivate` and `IsSpewActive`.
* A call either returns, terminates the process, or has no defined behaviour
  (`Outcome`).
-/

namespace Tier0

/-! ## Types of `dbg.h` -/

/-- The enum `SpewType_t` (`dbg.h:654`). -/
inductive SpewType_t
  | SPEW_MESSAGE
  | SPEW_WARNING
  | SPEW_ASSERT
  | SPEW_ERROR
  | SPEW_LOG
  deriving DecidableEq, Repr

/-- The enum `SpewRetval_t` (`dbg.h:665`). -/
inductive SpewRetval_t
  | SPEW_DEBUGGER
  | SPEW_CONTINUE
  | SPEW_ABORT
  deriving DecidableEq, Repr

/-- The enum `LoggingResponse_t` of `logging.h`, the answer of `Log_Assert`. -/
inductive LoggingResponse_t
  | LR_CONTINUE
  | LR_DEBUGGER
  | LR_ABORT
  deriving DecidableEq, Repr

open SpewType_t SpewRetval_t LoggingResponse_t

/-- The value of `EXIT_FAILURE` in `<stdlib.h>`. -/
def EXIT_FAILURE : Nat := 1

/-- What the process does to the outside world, in the order it happens. -/
inductive Event
  /-- Text printed by a sink, as by `printf("%s", pMsg)` in `DefaultSpewFunc`. -/
  | printf (text : List Char)
  /-- `OutputDebugString(pTempBuffer)`. -/
  | OutputDebugString (text : List Char)
  /-- A call `s_SpewOutputFunc(spewType, pTempBuffer)` of the function at `addr`. -/
  | sink (addr : Nat) (spewType : SpewType_t) (text : List Char)
  /-- `DebuggerBreak()`. -/
  | DebuggerBreak
  /-- `TerminateProcess(GetCurrentProcess(), code)`. -/
  | TerminateProcess (code : Nat)
  /-- `Log_Assert("%s (%d) : %s\n", file, line, msg)`. -/
  | Log_Assert (file : List Char) (line : Int) (msg : List Char)
  /-- `DoNewAssertDialog(file, line, msg)`. -/
  | DoNewAssertDialog (file : List Char) (line : Int) (msg : List Char)
  deriving DecidableEq, Repr

/-- How a call ends. -/
inductive Outcome (α : Type)
  /-- The call returns `v` to its caller. -/
  | returned (v : α)
  /-- The process was terminated with exit status `code`; control never returns. -/
  | terminated (code : Nat)
  /-- The call wrote outside `pTempBuffer` or read an unterminated string. -/
  | undefined
  deriving DecidableEq, Repr

/-- A function pointer of type `SpewOutputFunc_t` (`dbg.h:673`): the address
identifies the function, `run` is what a call does, given what happened so far:
the texts it prints and the response it returns. A sink that changes the spew
statics or spews itself is outside this model. -/
structure SpewOutputFunc_t where
  addr : Nat
  run : List Event → SpewType_t → List Char → List (List Char) × SpewRetval_t

/-! ## `spew.cpp` -/

/-- `DefaultSpewFunc` (`spew.cpp:12`): print the text, answer by kind. -/
def DefaultSpewFunc (type : SpewType_t) (pMsg : List Char) :
    List (List Char) × SpewRetval_t :=
  ([pMsg],
    if type = SPEW_ASSERT then SPEW_DEBUGGER
    else if type = SPEW_ERROR then SPEW_ABORT
    else SPEW_CONTINUE)

/-- The function pointer `DefaultSpewFunc`; address 0 stands for it. -/
def DefaultSpewFunc.ptr : SpewOutputFunc_t :=
  { addr := 0, run := fun _ type pMsg => DefaultSpewFunc type pMsg }

/-- The CRT `tolower` in the "C" locale. -/
def tolower (c : Char) : Char :=
  if 65 ≤ c.toNat ∧ c.toNat ≤ 90 then Char.ofNat (c.toNat + 32) else c

/-- The CRT `strnicmp(s1, s2, n)`: compare at most `n` characters, ignoring
letter case, stopping at the end of either string; 0 means equal. -/
def strnicmp : List Char → List Char → Nat → Int
  | _, _, 0 => 0
  | [], [], _ + 1 => 0
  | [], b :: _, _ + 1 => 0 - ((tolower b).toNat : Int)
  | a :: _, [], _ + 1 => ((tolower a).toNat : Int) - 0
  | a :: s1, b :: s2, n + 1 =>
    if tolower a = tolower b then strnicmp s1 s2 n
    else ((tolower a).toNat : Int) - ((tolower b).toNat : Int)

/-- The literal `_T("\\src\\")` of `CleanupAssertPath`. -/
def srcMarker : List Char := [Char.ofNat 92, 's', 'r', 'c', Char.ofNat 92]

/-- The loop of `CleanupAssertPath` (`spew.cpp:70`): the first `s` at which
`strnicmp(s, "\\src\\", 5)` is 0, if the loop finds one before `*s` is NUL. -/
def CleanupAssertPath.loop : List Char → Option (List Char)
  | [] => none
  | c :: s =>
    if strnicmp (c :: s) srcMarker 5 = 0 then some (c :: s)
    else CleanupAssertPath.loop s

/-- `CleanupAssertPath` (`spew.cpp:67`), `WIN32` branch. -/
def CleanupAssertPath (pFile : List Char) : List Char :=
  match CleanupAssertPath.loop pFile with
  | some s => s
  | none => pFile

/-- The NUL character that ends a C string. -/
def NUL : Char := Char.ofNat 0

/-- The characters a reader of a NUL-terminated string sees in memory that
holds `l` followed by a NUL: those before the first NUL. -/
def cstring (l : List Char) : List Char := l.takeWhile (fun c => c ≠ NUL)

/-- The cells of `tchar pTempBuffer[5020]` (`spew.cpp:100`); `none` is a cell
that was never written. -/
abbrev Buffer := List (Option Char)

/-- The uninitialised `pTempBuffer`; `sizeof(pTempBuffer)` is 5020. -/
def Buffer.fresh : Buffer := List.replicate 5020 none

/-- Write `data` into the cells `off`, `off + 1`, ... -/
def Buffer.store (buf : Buffer) (off : Nat) (data : List Char) : Buffer :=
  buf.take off ++ data.map some ++ buf.drop (off + data.length)

/-- Read the buffer as a C string from its first cell: the characters before
the first NUL, or `none` when an unwritten cell or the end of the buffer comes
before any NUL. -/
def Buffer.cstr : Buffer → Option (List Char)
  | [] => none
  | none :: _ => none
  | some c :: rest => if c = NUL then some [] else (Buffer.cstr rest).map (fun t => c :: t)

/-- The CRT `_sntprintf(&buf[off], count, ...)` of MSVC, where `text` is the
formatted data: fewer than `count` characters are stored with a NUL and their
number returned; exactly `count` are stored without a NUL and `count` returned;
more are cut to `count`, stored without a NUL, and -1 is returned.
`_vsntprintf` is the same function taking a `va_list`. -/
def _sntprintf (buf : Buffer) (off count : Nat) (text : List Char) : Buffer × Int :=
  if text.length < count then (buf.store off (text ++ [NUL]), (text.length : Int))
  else if text.length = count then (buf.store off text, (text.length : Int))
  else (buf.store off (text.take count), -1)

/-- What `%d` prints for an `int`. -/
def itoa : Int → List Char
  | Int.ofNat n => Nat.toDigits 10 n
  | Int.negSucc n => '-' :: Nat.toDigits 10 (n + 1)

/-- What `%s` prints for a string pointer; MSVC prints `(null)` for NULL. -/
def showStr : Option (List Char) → List Char
  | some s => s
  | none => "(null)".toList

/-- The formatted data of `"%s (%d) : "` for `s_pFileName` and `s_Line`
(`spew.cpp:111`). -/
def header (s_pFileName : Option (List Char)) (s_Line : Int) : List Char :=
  showStr s_pFileName ++ " (".toList ++ itoa s_Line ++ ") : ".toList

/-- The process-wide statics of `spew.cpp:35-39` and what has happened so far. -/
structure World where
  s_SpewOutputFunc : SpewOutputFunc_t
  s_pFileName : Option (List Char)
  s_Line : Int
  s_SpewType : SpewType_t
  trace : List Event

/-- The statics as the loader leaves them: `s_SpewOutputFunc = DefaultSpewFunc`,
the others zero. -/
def World.init : World :=
  { s_SpewOutputFunc := DefaultSpewFunc.ptr
    s_pFileName := none
    s_Line := 0
    s_SpewType := SPEW_MESSAGE
    trace := [] }

/-- Append events to the trace. -/
def World.emit (w : World) (es : List Event) : World :=
  { w with trace := w.trace ++ es }

/-- The functions declared in `dbg.h:85-91` and `logging.h` whose bodies are
not part of these files, and the build flags. Each answer may depend on what
has happened so far. -/
structure Platform where
  /-- Whether `DBGFLAG_ASSERT` is defined, so that `Assert` expands to `_AssertMsg`. -/
  DBGFLAG_ASSERT : Bool
  /-- The value of `__TFILE__` in `spew.cpp`. -/
  TFILE : List Char
  Log_Assert : List Event → List Char → Int → List Char → LoggingResponse_t
  ShouldUseNewAssertDialog : List Event → Bool
  DoNewAssertDialog : List Event → List Char → Int → List Char → Bool

/-- `SpewOutputFunc` (`spew.cpp:41`). -/
def SpewOutputFunc (func : SpewOutputFunc_t) (w : World) : World :=
  { w with s_SpewOutputFunc := func }

/-- `_SpewInfo` (`spew.cpp:83`). -/
def _SpewInfo (type : SpewType_t) (pFile : List Char) (line : Int) (w : World) : World :=
  { w with s_pFileName := some (CleanupAssertPath pFile), s_Line := line, s_SpewType := type }

/-- The break decision of `_AssertMsg` (`dbg.h:103-104`):
`if (!ShouldUseNewAssertDialog() || DoNewAssertDialog(file, line, msg)) DebuggerBreak();` -/
def breakAtCallSite (P : Platform) (file : List Char) (line : Int) (msg : List Char)
    (w : World) : World :=
  if P.ShouldUseNewAssertDialog w.trace = false then w.emit [Event.DebuggerBreak]
  else
    let w1 := w.emit [Event.DoNewAssertDialog file line msg]
    if P.DoNewAssertDialog w.trace file line msg = true then w1.emit [Event.DebuggerBreak]
    else w1

/-- `Assert(_exp)` inside `spew.cpp` at line `line`, where `expr` is the text
of `_exp`: nothing without `DBGFLAG_ASSERT` (`dbg.h:205`), otherwise
`_AssertMsg(_exp, "Assertion Failed: " #_exp, ((void)0), false)` (`dbg.h:181`). -/
def Assert (P : Platform) (line : Int) (expr : String) (_exp : Bool) (w : World) : World :=
  if P.DBGFLAG_ASSERT = true ∧ _exp = false then
    let msg := "Assertion Failed: ".toList ++ expr.toList
    let ret := P.Log_Assert w.trace P.TFILE line msg
    let w1 := w.emit [Event.Log_Assert P.TFILE line msg]
    if ret = LR_DEBUGGER then breakAtCallSite P P.TFILE line msg w1 else w1
  else w

/-- How lines 95-140 of `_SpewMessageType` end: with an early exit from the
function, or with the answer of the sink. -/
inductive Dispatched
  | exit (o : Outcome SpewRetval_t)
  | answered (ret : SpewRetval_t)
  deriving DecidableEq, Repr

/-- The two bounded writes of `_SpewMessageType` (`spew.cpp:107-124`): the
buffer and `len` after them, or `none` when one of them returned -1. `rendered`
is the formatted data of `pMsgFormat` with `args`. -/
def _SpewMessageType.write (spewType : SpewType_t) (s_pFileName : Option (List Char))
    (s_Line : Int) (rendered : List Char) : Option (Buffer × Nat) :=
  let pTempBuffer := Buffer.fresh
  let r1 : Buffer × Int :=
    if spewType = SPEW_ASSERT then _sntprintf pTempBuffer 0 (5020 - 1) (header s_pFileName s_Line)
    else (pTempBuffer, 0)
  if r1.2 = -1 then none
  else
    let r2 := _sntprintf r1.1 r1.2.toNat (5020 - r1.2.toNat - 1) rendered
    if r2.2 = -1 then none
    else some (r2.1, (r1.2 + r2.2).toNat)

/-- The newline of `_SpewMessageType` (`spew.cpp:127-134`):
`len += _stprintf(&pTempBuffer[len], "\n")` for `SPEW_ASSERT` stores a newline
and a NUL; `none` when the NUL would land behind the last cell. -/
def _SpewMessageType.newline (spewType : SpewType_t) (buf : Buffer) (len : Nat) :
    Option (Buffer × Nat) :=
  if spewType = SPEW_ASSERT then
    if 5020 < len + 2 then none else some (buf.store len ['\n', NUL], len + 1)
  else some (buf, len)

/-- `_SpewMessageType` up to and including the call of the sink
(`spew.cpp:95-140`). -/
def _SpewMessageType.dispatch (P : Platform) (spewType : SpewType_t)
    (pMsgFormat rendered : List Char) (w : World) : World × Dispatched :=
  let w := Assert P 105 "_tcslen(pMsgFormat) < sizeof(pTempBuffer)"
    (decide (pMsgFormat.length < 5020)) w
  match _SpewMessageType.write spewType w.s_pFileName w.s_Line rendered with
  | none => (w, Dispatched.exit (Outcome.returned SPEW_ABORT))
  | some (buf, len) =>
    let w := Assert P 125 "len * sizeof(*pMsgFormat) < sizeof(pTempBuffer)"
      (decide (len * 1 < 5020)) w
    match _SpewMessageType.newline spewType buf len with
    | none => (w, Dispatched.exit Outcome.undefined)
    | some (buf, len) =>
      -- `OutputDebugString(pTempBuffer)` reads the buffer as a C string
      match (if spewType = SPEW_ASSERT then
          buf.cstr.map (fun text => w.emit [Event.OutputDebugString text])
        else some w) with
      | none => (w, Dispatched.exit Outcome.undefined)
      | some w =>
        let w := Assert P 136 "(uint)len < sizeof(pTempBuffer) / sizeof(pTempBuffer[0]) - 1"
          (decide (len < 5020 / 1 - 1)) w
        let w := Assert P 137 "s_SpewOutputFunc" true w
        -- the sink reads `pTempBuffer` as a C string
        match buf.cstr with
        | none => (w, Dispatched.exit Outcome.undefined)
        | some text =>
          let r := w.s_SpewOutputFunc.run w.trace spewType text
          (w.emit (Event.sink w.s_SpewOutputFunc.addr spewType text :: r.1.map Event.printf),
            Dispatched.answered r.2)

/-- The `switch (ret)` of `_SpewMessageType` and its `return ret`
(`spew.cpp:141-165`). -/
def _SpewMessageType.respond (spewType : SpewType_t) (ret : SpewRetval_t) (w : World) :
    World × Outcome SpewRetval_t :=
  match ret with
  | SPEW_DEBUGGER =>
    if spewType ≠ SPEW_ASSERT then (w.emit [Event.DebuggerBreak], Outcome.returned ret)
    else (w, Outcome.returned ret)
  | SPEW_ABORT => (w.emit [Event.TerminateProcess EXIT_FAILURE], Outcome.terminated EXIT_FAILURE)
  | SPEW_CONTINUE => (w, Outcome.returned ret)

/-- `_SpewMessageType` (`spew.cpp:95`). -/
def _SpewMessageType (P : Platform) (spewType : SpewType_t) (pMsgFormat rendered : List Char)
    (w : World) : World × Outcome SpewRetval_t :=
  match _SpewMessageType.dispatch P spewType pMsgFormat rendered w with
  | (w1, Dispatched.exit o) => (w1, o)
  | (w1, Dispatched.answered ret) => _SpewMessageType.respond spewType ret w1

/-- `_SpewMessage` (`spew.cpp:168`). -/
def _SpewMessage (P : Platform) (pMsgFormat rendered : List Char) (w : World) :
    World × Outcome SpewRetval_t :=
  _SpewMessageType P w.s_SpewType pMsgFormat rendered w

/-- The three-parameter `_ExitOnFatalAssert(pFile, line, pMessage)` defined at
`spew.cpp:46`; its `pMessage` is never read. The process ends after the
`_SpewMessage` call, unless that call ended it already. -/
def _ExitOnFatalAssert (P : Platform) (pFile : List Char) (line : Int) (w : World) :
    World × Outcome Unit :=
  let pMsgFormat := "Fatal assert failed: %s, line %d.  Application exiting.\n".toList
  let rendered := "Fatal assert failed: ".toList ++ pFile ++ ", line ".toList ++ itoa line ++
    ".  Application exiting.\n".toList
  match _SpewMessage P pMsgFormat rendered w with
  | (w1, Outcome.returned _) =>
    (w1.emit [Event.TerminateProcess EXIT_FAILURE], Outcome.terminated EXIT_FAILURE)
  | (w1, Outcome.terminated code) => (w1, Outcome.terminated code)
  | (w1, Outcome.undefined) => (w1, Outcome.undefined)

/-! ## The assert macros of `dbg.h` -/

/-- Modelled from the spec: the two-parameter `_ExitOnFatalAssert(pFile, line)`
that `dbg.h:85` declares and the `_AssertMsg` macro calls (`dbg.h:106`). Its
body is not in the files: the function of `spew.cpp:46` takes three parameters
and is another overload. The spec (4.6, 6) says of the fatal variant that the
process is terminated, with a cleanup-skipping exit and the abrupt failure
status, after the break decision. -/
def _ExitOnFatalAssert.declared (_pFile : List Char) (_line : Int) (w : World) :
    World × Outcome Unit :=
  (w.emit [Event.TerminateProcess EXIT_FAILURE], Outcome.terminated EXIT_FAILURE)

/-- `_AssertMsg(_exp, _msg, _executeExp, _bFatal)` (`dbg.h:95`) expanded at
`file`:`line`. `_exp` is the value of the condition, and `_executeExp` acts on
a state `σ` of the caller. The call `_ExitOnFatalAssert( __TFILE__, __LINE__ )`
has two arguments, so it is a call of the two-parameter function. -/
def _AssertMsg {σ : Type} (P : Platform) (file : List Char) (line : Int) (_exp : Bool)
    (_msg : List Char) (_executeExp : σ → σ) (_bFatal : Bool) (st : World × σ) :
    (World × σ) × Outcome Unit :=
  if _exp = false then
    let ret := P.Log_Assert st.1.trace file line _msg
    let w1 := st.1.emit [Event.Log_Assert file line _msg]
    let s1 := _executeExp st.2
    if ret = LR_DEBUGGER then
      let w2 := breakAtCallSite P file line _msg w1
      if _bFatal = true then
        match _ExitOnFatalAssert.declared file line w2 with
        | (w3, o) => ((w3, s1), o)
      else ((w2, s1), Outcome.returned ())
    else ((w1, s1), Outcome.returned ())
  else (st, Outcome.returned ())

/-- `_AssertMsgOnce(_exp, _msg, _bFatal)` (`dbg.h:111`) expanded at
`file`:`line`; the second component of the state is the call site's
`static bool fAsserted`. -/
def _AssertMsgOnce (P : Platform) (file : List Char) (line : Int) (_exp : Bool)
    (_msg : List Char) (_bFatal : Bool) (st : World × Bool) : (World × Bool) × Outcome Unit :=
  if st.2 = false then _AssertMsg P file line _exp _msg (fun _ => true) _bFatal st
  else (st, Outcome.returned ())

/-- Control reaching one `_AssertMsgOnce` call site again and again: each
element is the value of `_exp` and the message of one evaluation. The sequence
stops when the process ends. -/
def _AssertMsgOnce.evaluations (P : Platform) (file : List Char) (line : Int)
    (_bFatal : Bool) : List (Bool × List Char) → World × Bool → (World × Bool) × Outcome Unit
  | [], st => (st, Outcome.returned ())
  | e :: es, st =>
    match _AssertMsgOnce P file line e.1 e.2 _bFatal st with
    | (st1, Outcome.returned _) => _AssertMsgOnce.evaluations P file line _bFatal es st1
    | (st1, Outcome.terminated code) => (st1, Outcome.terminated code)
    | (st1, Outcome.undefined) => (st1, Outcome.undefined)

/-! ## `CDbgFmtMsg` (`dbg.h:409`) -/

/-- C99 `vsnprintf(&buf[off], size, ...)`, where `text` is the formatted data:
at most `size - 1` characters are stored, then a NUL; the length of the
formatted data is returned. -/
def vsnprintf (buf : Buffer) (off size : Nat) (text : List Char) : Buffer × Int :=
  if size = 0 then (buf, (text.length : Int))
  else (buf.store off (text.take (size - 1) ++ [NUL]), (text.length : Int))

/-- `Tier0Internal_vsntprintf` (`dbg.h:393-401`): `vsnprintf` when `POSIX` is
defined, MSVC's `_vsntprintf` otherwise. -/
def Tier0Internal_vsntprintf (POSIX : Bool) (buf : Buffer) (off count : Nat)
    (text : List Char) : Buffer × Int :=
  if POSIX = true then vsnprintf buf off count text else _sntprintf buf off count text

/-- The constructor `CDbgFmtMsg::CDbgFmtMsg` (`dbg.h:412-421`): the member
`tchar m_szBuf[256]` after it. `rendered` is the formatted data of `pszFormat`
with the arguments; the value `Tier0Internal_vsntprintf` returns is dropped. -/
def CDbgFmtMsg (POSIX : Bool) (rendered : List Char) : Buffer :=
  let m_szBuf : Buffer := List.replicate 256 none
  let m_szBuf := (Tier0Internal_vsntprintf POSIX m_szBuf 0 (256 - 1) rendered).1
  -- `m_szBuf[sizeof(m_szBuf)-1] = 0;`
  m_szBuf.store (256 - 1) [NUL]

/-- `CDbgFmtMsg::operator const tchar *()` (`dbg.h:423`), read as a C string. -/
def CDbgFmtMsg.str (POSIX : Bool) (rendered : List Char) : Option (List Char) :=
  (CDbgFmtMsg POSIX rendered).cstr

/-! ## Spew groups (`dbg.h:692-694`) -/

/-- Modelled from the spec: the registry behind `SpewActivate` and
`IsSpewActive`, which `dbg.h:693-694` only declares. The spec (3, 4.3) makes it
a mapping keyed by group name, with unique keys and no deletion, from a group
name to its active level. -/
abbrev SpewGroups := List (List Char × Int)

/-- Modelled from the spec: `SpewActivate(pGroupName, level)`, declared in
`dbg.h:693` without a body. The spec (4.3) calls it an upsert: the entry of the
group gets the level, and a group without an entry gets one. -/
def SpewActivate (pGroupName : List Char) (level : Int) : SpewGroups → SpewGroups
  | [] => [(pGroupName, level)]
  | e :: rest =>
    if e.1 = pGroupName then (e.1, level) :: rest
    else e :: SpewActivate pGroupName level rest

/-- Modelled from the spec: `IsSpewActive(pGroupName, level)`, declared in
`dbg.h:694` without a body. The spec (4.3): true iff there is an entry for that
exact group name whose registered level is at least the queried level; no
entry means inactive at every level. -/
def IsSpewActive (pGroupName : List Char) (level : Int) (groups : SpewGroups) : Bool :=
  match groups.find? (fun e => decide (e.1 = pGroupName)) with
  | some e => decide (level ≤ e.2)
  | none => false

/-- A run of `SpewActivate` calls, first to last, in a process that starts
with no group. -/
def SpewActivate.all (acts : List (List Char × Int)) : SpewGroups :=
  acts.foldl (fun groups a => SpewActivate a.1 a.2 groups) []

/-! ## Vocabulary of the theorems -/

/-- A platform for the concrete examples: `DBGFLAG_ASSERT` defined,
`Log_Assert` answers `LR_DEBUGGER`, the dialog is in use and declines. -/
def Platform.debug : Platform :=
  { DBGFLAG_ASSERT := true
    TFILE := "spew.cpp".toList
    Log_Assert := fun _ _ _ _ => LR_DEBUGGER
    ShouldUseNewAssertDialog := fun _ => true
    DoNewAssertDialog := fun _ _ _ _ => false }

/-- A platform for the concrete examples: as `Platform.debug`, but `Log_Assert`
answers `LR_CONTINUE`. -/
def Platform.continuing : Platform :=
  { DBGFLAG_ASSERT := true
    TFILE := "spew.cpp".toList
    Log_Assert := fun _ _ _ _ => LR_CONTINUE
    ShouldUseNewAssertDialog := fun _ => true
    DoNewAssertDialog := fun _ _ _ _ => false }

/-- A call of one of the spew functions other than `SpewOutputFunc`. -/
inductive SpewCall
  | info (type : SpewType_t) (pFile : List Char) (line : Int)
  | message (pMsgFormat rendered : List Char)
  | messageType (spewType : SpewType_t) (pMsgFormat rendered : List Char)

/-- Make one call: `_SpewInfo`, `_SpewMessage` or `_SpewMessageType`. -/
def SpewCall.run (P : Platform) : SpewCall → World → World × Outcome SpewRetval_t
  | SpewCall.info type pFile line, w => (_SpewInfo type pFile line w, Outcome.returned SPEW_CONTINUE)
  | SpewCall.message pMsgFormat rendered, w => _SpewMessage P pMsgFormat rendered w
  | SpewCall.messageType spewType pMsgFormat rendered, w =>
    _SpewMessageType P spewType pMsgFormat rendered w

/-- Make the calls one after the other, as long as the process lives; the
value a call returns is dropped. -/
def SpewCall.runAll (P : Platform) : List SpewCall → World → World × Outcome Unit
  | [], w => (w, Outcome.returned ())
  | c :: cs, w =>
    match c.run P w with
    | (w1, Outcome.returned _) => SpewCall.runAll P cs w1
    | (w1, Outcome.terminated code) => (w1, Outcome.terminated code)
    | (w1, Outcome.undefined) => (w1, Outcome.undefined)

/-- A sink for the concrete examples, at address 1: it prints the text and
always answers `SPEW_DEBUGGER`. -/
def breakingSink : SpewOutputFunc_t :=
  { addr := 1, run := fun _ _ pMsg => ([pMsg], SPEW_DEBUGGER) }

/-- The calls of the installed sink in a trace: address, kind and text. -/
def sinkCalls : List Event → List (Nat × SpewType_t × List Char)
  | [] => []
  | Event.sink addr spewType text :: es => (addr, spewType, text) :: sinkCalls es
  | _ :: es => sinkCalls es

/-- The number of `Log_Assert` calls in a trace. -/
def logAsserts : List Event → Nat
  | [] => 0
  | Event.Log_Assert _ _ _ :: es => logAsserts es + 1
  | _ :: es => logAsserts es

/-- The location text `_SpewMessageType` writes in front of the message: the
header for `SPEW_ASSERT`, nothing for the other kinds. -/
def location (spewType : SpewType_t) (w : World) : List Char :=
  if spewType = SPEW_ASSERT then header w.s_pFileName w.s_Line else []

/-- The line end `_SpewMessageType` appends: a newline for `SPEW_ASSERT`. -/
def lineEnd (spewType : SpewType_t) : List Char :=
  if spewType = SPEW_ASSERT then ['\n'] else []

/-- What a failing or passing `Assert` of `spew.cpp` can add to the trace: no
call of the sink and no process exit. -/
def Quiet (es : List Event) : Prop :=
  sinkCalls es = [] ∧ ∀ code, Event.TerminateProcess code ∉ es

/-- The events `breakAtCallSite` adds after the trace `tr`. -/
def breakAtCallSite.events (P : Platform) (file : List Char) (line : Int) (msg : List Char)
    (tr : List Event) : List Event :=
  if P.ShouldUseNewAssertDialog tr = false then [Event.DebuggerBreak]
  else if P.DoNewAssertDialog tr file line msg = true then
    [Event.DoNewAssertDialog file line msg, Event.DebuggerBreak]
  else [Event.DoNewAssertDialog file line msg]

/-- The events `Assert` adds after the trace `tr`. -/
def Assert.events (P : Platform) (line : Int) (expr : String) (c : Bool) (tr : List Event) :
    List Event :=
  if P.DBGFLAG_ASSERT = true ∧ c = false then
    Event.Log_Assert P.TFILE line ("Assertion Failed: ".toList ++ expr.toList) ::
      (if P.Log_Assert tr P.TFILE line ("Assertion Failed: ".toList ++ expr.toList) = LR_DEBUGGER
        then breakAtCallSite.events P P.TFILE line ("Assertion Failed: ".toList ++ expr.toList)
          (tr ++ [Event.Log_Assert P.TFILE line ("Assertion Failed: ".toList ++ expr.toList)])
        else [])
  else []

/-- The events the `switch (ret)` adds. -/
def _SpewMessageType.respond.events (spewType : SpewType_t) (ret : SpewRetval_t) : List Event :=
  if ret = SPEW_DEBUGGER ∧ spewType ≠ SPEW_ASSERT then [Event.DebuggerBreak]
  else if ret = SPEW_ABORT then [Event.TerminateProcess EXIT_FAILURE]
  else []

/-- How `_SpewMessageType` ends once the sink answered `ret`. -/
def _SpewMessageType.respond.outcome (ret : SpewRetval_t) : Outcome SpewRetval_t :=
  if ret = SPEW_ABORT then Outcome.terminated EXIT_FAILURE else Outcome.returned ret

/-- The text `_SpewMessageType` hands the sink when it fits the buffer. -/
def formatted (spewType : SpewType_t) (rendered : List Char) (w : World) : List Char :=
  cstring (location spewType w ++ rendered ++ lineEnd spewType)

/-- The formatted data of the message of `_ExitOnFatalAssert`
(`spew.cpp:48`). -/
def fatalMessage (pFile : List Char) (line : Int) : List Char :=
  "Fatal assert failed: ".toList ++ pFile ++ ", line ".toList ++ itoa line ++
    ".  Application exiting.\n".toList

/-! ## The statements of the specification, in its own words -/

/-- The five-character marker `\\src\\` occurs at the start of `s`, letter case
ignored. -/
def markerAt (s : List Char) : Bool :=
  (s.take 5).map tolower == srcMarker

/-- The level currently registered for `name` after the activations `acts`: that
of the last `SpewActivate` made for exactly this name, a later one replacing an
earlier one; `none` when the name was never activated. -/
def registered (name : List Char) (acts : List (List Char × Int)) : Option Int :=
  acts.foldl (fun r a => if a.1 = name then some a.2 else r) none

/-! ## Theorems -/

theorem toNat_sub_eq_zero {a b : Char} (h : ((a.toNat : Int)) - (b.toNat : Int) = 0) : a = b := by
  have h1 : a.toNat = b.toNat := by omega
  apply Char.ext
  apply UInt32.ext
  exact h1

theorem tolower_backslash : tolower (Char.ofNat 92) = Char.ofNat 92 := by decide

theorem strnicmp_cons (a b : Char) (s t : List Char) (n : Nat) :
    strnicmp (a :: s) (b :: t) (n + 1) = 0 ↔ (tolower a = tolower b ∧ strnicmp s t n = 0) := by
  rw [strnicmp]
  by_cases h : tolower a = tolower b
  · simp [h]
  · simp only [h, if_false, false_and, iff_false]
    intro h0
    exact h (toNat_sub_eq_zero h0)

theorem strnicmp_zero (s t : List Char) : strnicmp s t 0 = 0 := by
  rw [strnicmp]

theorem strnicmp_nil_cons (b : Char) (t : List Char) (n : Nat) (hb : (tolower b).toNat ≠ 0) :
    strnicmp [] (b :: t) (n + 1) ≠ 0 := by
  rw [strnicmp]
  omega

theorem strnicmp_srcMarker (s : List Char) :
    strnicmp s srcMarker 5 = 0 ↔ markerAt s = true := by
  have hb : (tolower (Char.ofNat 92)).toNat ≠ 0 := by decide
  have hs : (tolower 's').toNat ≠ 0 := by decide
  have hr : (tolower 'r').toNat ≠ 0 := by decide
  have hc : (tolower 'c').toNat ≠ 0 := by decide
  have e1 : tolower (Char.ofNat 92) = Char.ofNat 92 := by decide
  have e2 : tolower 's' = 's' := by decide
  have e3 : tolower 'r' = 'r' := by decide
  have e4 : tolower 'c' = 'c' := by decide
  unfold markerAt srcMarker
  rcases s with _ | ⟨a, _ | ⟨b, _ | ⟨c, _ | ⟨d, _ | ⟨e, s⟩⟩⟩⟩⟩
  · simpa using strnicmp_nil_cons _ _ _ hb
  · simp [strnicmp_cons, strnicmp_nil_cons, hs]
  · simp [strnicmp_cons, strnicmp_nil_cons, hr]
  · simp [strnicmp_cons, strnicmp_nil_cons, hc]
  · simp [strnicmp_cons, strnicmp_nil_cons, hb]
  · simp [strnicmp_cons, strnicmp_zero, e1, e2, e3, e4]

theorem markerAt_nil : markerAt [] = false := by decide

theorem CleanupAssertPath.loop_spec (pFile : List Char) :
    (∃ k, markerAt (pFile.drop k) = true ∧ (∀ i, i < k → markerAt (pFile.drop i) = false) ∧
        CleanupAssertPath.loop pFile = some (pFile.drop k)) ∨
    ((∀ i, markerAt (pFile.drop i) = false) ∧ CleanupAssertPath.loop pFile = none) := by
  induction pFile with
  | nil =>
    right
    refine ⟨fun i => ?_, rfl⟩
    simp [markerAt_nil]
  | cons c s ih =>
    by_cases h : strnicmp (c :: s) srcMarker 5 = 0
    · left
      refine ⟨0, ?_, ?_, ?_⟩
      · simpa using (strnicmp_srcMarker (c :: s)).mp h
      · intro i hi
        omega
      · simp [CleanupAssertPath.loop, h]
    · have hm : markerAt (c :: s) = false := by
        cases hv : markerAt (c :: s) with
        | false => rfl
        | true => exact absurd ((strnicmp_srcMarker (c :: s)).mpr hv) h
      rcases ih with ⟨k, hk, hlt, hloop⟩ | ⟨hall, hloop⟩
      · left
        refine ⟨k + 1, by simpa using hk, ?_, ?_⟩
        · intro i hi
          cases i with
          | zero => simpa using hm
          | succ j => simpa using hlt j (by omega)
        · simp [CleanupAssertPath.loop, h, hloop]
      · right
        refine ⟨?_, ?_⟩
        · intro i
          cases i with
          | zero => simpa using hm
          | succ j => simpa using hall j
        · simp [CleanupAssertPath.loop, h, hloop]

/-! ### The buffer -/

theorem Buffer.cstr_terminated (l : List Char) (rest : Buffer) :
    Buffer.cstr (l.map some ++ some NUL :: rest) = some (cstring l) := by
  induction l with
  | nil => simp [Buffer.cstr, cstring]
  | cons c l ih =>
    by_cases hc : c = NUL
    · simp [Buffer.cstr, cstring, hc]
    · have ih1 : Buffer.cstr (List.map some l ++ some NUL :: rest) = some (cstring l) := ih
      simp [Buffer.cstr, cstring, hc, ih1] at *

theorem Buffer.store_end (l data : List Char) (rest : Buffer) :
    Buffer.store (l.map some ++ rest) l.length data =
      (l ++ data).map some ++ rest.drop data.length := by
  have h1 : (l.map some ++ rest).take l.length = l.map some :=
    List.take_left' (by simp)
  have h2 : (l.map some ++ rest).drop (l.length + data.length) = rest.drop data.length := by
    have := @List.drop_append _ (l.map some) rest data.length
    simpa using this
  simp [Buffer.store, h1, h2]

theorem Buffer.store_fresh (data : List Char) :
    Buffer.store Buffer.fresh 0 data = data.map some ++ Buffer.fresh.drop data.length := by
  simpa using Buffer.store_end [] data Buffer.fresh

theorem _sntprintf_lt (buf : Buffer) (off count : Nat) (text : List Char)
    (h : text.length < count) :
    _sntprintf buf off count text = (buf.store off (text ++ [NUL]), (text.length : Int)) := by
  simp [_sntprintf, h]

theorem _sntprintf_overflow (buf : Buffer) (off count : Nat) (text : List Char) :
    (_sntprintf buf off count text).2 = -1 ↔ count < text.length := by
  unfold _sntprintf
  split_ifs with h1 h2
  · constructor
    · intro h
      exact absurd h (by simp)
    · intro h
      omega
  · constructor
    · intro h
      exact absurd h (by simp)
    · intro h
      omega
  · constructor
    · intro _
      omega
    · intro _
      rfl

theorem _sntprintf_ok (buf : Buffer) (off count : Nat) (text : List Char)
    (h : text.length ≤ count) : (_sntprintf buf off count text).2 = (text.length : Int) := by
  unfold _sntprintf
  split_ifs with h1 h2
  · rfl
  · rfl
  · omega

/-! ### The trace -/

@[simp] theorem World.emit_nil (w : World) : w.emit [] = w := by
  simp [World.emit]

@[simp] theorem World.emit_emit (w : World) (a b : List Event) :
    (w.emit a).emit b = w.emit (a ++ b) := by
  simp [World.emit]

@[simp] theorem World.emit_trace (w : World) (a : List Event) :
    (w.emit a).trace = w.trace ++ a := rfl

@[simp] theorem World.emit_s_SpewOutputFunc (w : World) (a : List Event) :
    (w.emit a).s_SpewOutputFunc = w.s_SpewOutputFunc := rfl

@[simp] theorem World.emit_s_pFileName (w : World) (a : List Event) :
    (w.emit a).s_pFileName = w.s_pFileName := rfl

@[simp] theorem World.emit_s_Line (w : World) (a : List Event) :
    (w.emit a).s_Line = w.s_Line := rfl

@[simp] theorem World.emit_s_SpewType (w : World) (a : List Event) :
    (w.emit a).s_SpewType = w.s_SpewType := rfl

theorem sinkCalls_append (a b : List Event) : sinkCalls (a ++ b) = sinkCalls a ++ sinkCalls b := by
  induction a with
  | nil => rfl
  | cons e a ih => cases e <;> simp [sinkCalls, ih]

theorem logAsserts_append (a b : List Event) : logAsserts (a ++ b) = logAsserts a + logAsserts b := by
  induction a with
  | nil => simp [logAsserts]
  | cons e a ih => cases e <;> simp [logAsserts, ih]; omega

theorem sinkCalls_printf (l : List (List Char)) : sinkCalls (l.map Event.printf) = [] := by
  induction l with
  | nil => rfl
  | cons e a ih => simp [sinkCalls, ih]

theorem Quiet_nil : Quiet [] := ⟨rfl, fun _ => by simp⟩

theorem Quiet_append {a b : List Event} (ha : Quiet a) (hb : Quiet b) : Quiet (a ++ b) := by
  refine ⟨by simp [sinkCalls_append, ha.1, hb.1], fun code => ?_⟩
  simp [ha.2 code, hb.2 code]

theorem breakAtCallSite_eq (P : Platform) (file : List Char) (line : Int) (msg : List Char)
    (w : World) :
    breakAtCallSite P file line msg w = w.emit (breakAtCallSite.events P file line msg w.trace) := by
  unfold breakAtCallSite breakAtCallSite.events
  by_cases h1 : P.ShouldUseNewAssertDialog w.trace = false
  · simp [h1]
  · by_cases h2 : P.DoNewAssertDialog w.trace file line msg = true
    · simp [h1, h2]
    · simp [h1, h2]

theorem Assert_eq (P : Platform) (line : Int) (expr : String) (c : Bool) (w : World) :
    Assert P line expr c w = w.emit (Assert.events P line expr c w.trace) := by
  unfold Assert Assert.events
  by_cases h1 : P.DBGFLAG_ASSERT = true ∧ c = false
  · by_cases h2 : P.Log_Assert w.trace P.TFILE line
        ("Assertion Failed: ".toList ++ expr.toList) = LR_DEBUGGER
    · simp only [h1, h2, and_self, if_true, breakAtCallSite_eq, World.emit_emit,
        World.emit_trace]
      rfl
    · simp only [h1, h2, and_self, if_true, if_false]
  · simp [h1]

theorem breakAtCallSite_events_quiet (P : Platform) (file : List Char) (line : Int)
    (msg : List Char) (tr : List Event) : Quiet (breakAtCallSite.events P file line msg tr) := by
  unfold breakAtCallSite.events
  split_ifs <;> simp [Quiet, sinkCalls]

theorem Assert_events_quiet (P : Platform) (line : Int) (expr : String) (c : Bool)
    (tr : List Event) : Quiet (Assert.events P line expr c tr) := by
  unfold Assert.events
  split_ifs with h1 h2
  · have hq := breakAtCallSite_events_quiet P P.TFILE line
      ("Assertion Failed: ".toList ++ expr.toList)
      (tr ++ [Event.Log_Assert P.TFILE line ("Assertion Failed: ".toList ++ expr.toList)])
    refine ⟨by simpa [sinkCalls] using hq.1, fun code => ?_⟩
    simpa using hq.2 code
  · simp [Quiet, sinkCalls]
  · exact Quiet_nil

/-! ### `_SpewMessageType` when the text fits -/

theorem _SpewMessageType.write_none_iff (spewType : SpewType_t) (f : Option (List Char))
    (l : Int) (rendered : List Char) :
    _SpewMessageType.write spewType f l rendered = none ↔
      5019 < (if spewType = SPEW_ASSERT then header f l else []).length + rendered.length := by
  unfold _SpewMessageType.write
  by_cases ht : spewType = SPEW_ASSERT
  · simp only [ht, if_true]
    by_cases h1 : 5019 < (header f l).length
    · have := (_sntprintf_overflow Buffer.fresh 0 (5020 - 1) (header f l)).mpr (by omega)
      simp only [this, if_true, true_iff]
      omega
    · have e1 := _sntprintf_ok Buffer.fresh 0 (5020 - 1) (header f l) (by omega)
      have n1 : ¬ ((header f l).length : Int) = -1 := by omega
      simp only [e1, n1, if_false, Int.toNat_ofNat]
      split_ifs with h2
      · simp only [true_iff]
        have := (_sntprintf_overflow _ _ _ _).mp h2
        omega
      · simp only [false_iff]
        have := mt (_sntprintf_overflow _ _ _ _).mpr h2
        omega
  · have n0 : ¬ ((0 : Int) = -1) := by decide
    simp only [ht, if_false, n0, Int.toNat_zero]
    by_cases h2 : (_sntprintf Buffer.fresh 0 (5020 - 0 - 1) rendered).2 = -1
    · simp only [h2, if_true, true_iff]
      have := (_sntprintf_overflow _ _ _ _).mp h2
      simp only [List.length_nil]
      omega
    · simp only [h2, if_false, false_iff]
      have := mt (_sntprintf_overflow _ _ _ _).mpr h2
      simp only [List.length_nil, reduceCtorEq, false_iff]
      omega

theorem _SpewMessageType.write_fits (spewType : SpewType_t) (f : Option (List Char))
    (l : Int) (rendered : List Char)
    (h : (if spewType = SPEW_ASSERT then header f l else []).length + rendered.length < 5019) :
    ∃ rest, _SpewMessageType.write spewType f l rendered =
      some (((if spewType = SPEW_ASSERT then header f l else []) ++ rendered).map some ++
          some NUL :: rest,
        (if spewType = SPEW_ASSERT then header f l else []).length + rendered.length) := by
  unfold _SpewMessageType.write
  by_cases ht : spewType = SPEW_ASSERT
  · simp only [ht, if_true] at h ⊢
    have n1 : ¬ ((header f l).length : Int) = -1 := by omega
    have n2 : ¬ (rendered.length : Int) = -1 := by omega
    have e3 : (((header f l).length : Int) + (rendered.length : Int)).toNat =
        (header f l).length + rendered.length := by omega
    rw [_sntprintf_lt _ _ _ _ (by omega)]
    simp only [n1, if_false, Int.toNat_ofNat]
    rw [_sntprintf_lt _ _ _ _ (by omega)]
    simp only [n2, if_false, e3, Buffer.store_fresh, List.map_append, List.append_assoc]
    rw [Buffer.store_end]
    refine ⟨List.drop (rendered ++ [NUL]).length
      (List.map some [NUL] ++ List.drop (header f l ++ [NUL]).length Buffer.fresh), ?_⟩
    simp
  · simp only [ht, if_false] at h ⊢
    have n0 : ¬ ((0 : Int) = -1) := by decide
    have n2 : ¬ (rendered.length : Int) = -1 := by omega
    have e3 : ((0 : Int) + (rendered.length : Int)).toNat = 0 + rendered.length := by omega
    simp only [n0, if_false, Int.toNat_zero]
    rw [_sntprintf_lt _ _ _ _ (by simp at h; omega)]
    simp only [n2, if_false, e3, Buffer.store_fresh, List.map_append, List.append_assoc]
    refine ⟨List.drop (rendered ++ [NUL]).length Buffer.fresh, ?_⟩
    simp

theorem _SpewMessageType.newline_cstr (spewType : SpewType_t) (text : List Char)
    (rest : Buffer) (h : text.length < 5019) :
    ∃ buf, _SpewMessageType.newline spewType (text.map some ++ some NUL :: rest) text.length =
        some (buf, text.length + (lineEnd spewType).length) ∧
      buf.cstr = some (cstring (text ++ lineEnd spewType)) := by
  unfold _SpewMessageType.newline lineEnd
  by_cases ht : spewType = SPEW_ASSERT
  · have n1 : ¬ 5020 < text.length + 2 := by omega
    simp only [ht, if_true, n1, if_false, Buffer.store_end]
    refine ⟨_, rfl, ?_⟩
    have := Buffer.cstr_terminated (text ++ ['\n']) (List.drop 2 (some NUL :: rest))
    simpa using this
  · simp only [ht, if_false]
    refine ⟨_, rfl, ?_⟩
    simpa using Buffer.cstr_terminated text rest

theorem _SpewMessageType.dispatch_fits (P : Platform) (spewType : SpewType_t)
    (pMsgFormat rendered : List Char) (w : World)
    (h : (location spewType w).length + rendered.length < 5019) :
    ∃ pre, Quiet pre ∧
      _SpewMessageType.dispatch P spewType pMsgFormat rendered w =
        (w.emit (pre ++ Event.sink w.s_SpewOutputFunc.addr spewType
            (cstring (location spewType w ++ rendered ++ lineEnd spewType)) ::
            (w.s_SpewOutputFunc.run (w.trace ++ pre) spewType
              (cstring (location spewType w ++ rendered ++ lineEnd spewType))).1.map
              Event.printf),
          Dispatched.answered (w.s_SpewOutputFunc.run (w.trace ++ pre) spewType
            (cstring (location spewType w ++ rendered ++ lineEnd spewType))).2) := by
  obtain ⟨rest, hw⟩ := _SpewMessageType.write_fits spewType w.s_pFileName w.s_Line rendered h
  have hlen : (location spewType w ++ rendered).length < 5019 := by
    simpa using h
  obtain ⟨buf, hn, hc⟩ := _SpewMessageType.newline_cstr spewType
    (location spewType w ++ rendered) rest hlen
  simp only [List.length_append] at hn
  simp only [_SpewMessageType.dispatch, Assert_eq, World.emit_emit, World.emit_trace,
    World.emit_s_pFileName, World.emit_s_Line, World.emit_s_SpewOutputFunc]
  unfold location at hn hc ⊢
  rw [hw]
  simp only [hn, hc]
  generalize he1 : Assert.events P 105 _ _ w.trace = e1
  have q1 : Quiet e1 := he1 ▸ Assert_events_quiet _ _ _ _ _
  generalize he2 : Assert.events P 125 _ _ (w.trace ++ e1) = e2
  have q2 : Quiet e2 := he2 ▸ Assert_events_quiet _ _ _ _ _
  by_cases ht : spewType = SPEW_ASSERT
  · simp only [ht, if_true, Option.map_some', World.emit_emit, World.emit_trace,
      World.emit_s_SpewOutputFunc] at hc ⊢
    generalize he3 : Assert.events P 136 _ _ _ = e3
    have q3 : Quiet e3 := he3 ▸ Assert_events_quiet _ _ _ _ _
    generalize he4 : Assert.events P 137 _ _ _ = e4
    have q4 : Quiet e4 := he4 ▸ Assert_events_quiet _ _ _ _ _
    refine ⟨e1 ++ e2 ++ [Event.OutputDebugString
      (cstring (header w.s_pFileName w.s_Line ++ rendered ++ lineEnd SPEW_ASSERT))] ++ e3 ++ e4,
      ?_, ?_⟩
    · exact Quiet_append (Quiet_append (Quiet_append (Quiet_append q1 q2)
        (by simp [Quiet, sinkCalls])) q3) q4
    · simp only [List.append_assoc]
  · simp only [ht, if_false, World.emit_emit, World.emit_trace,
      World.emit_s_SpewOutputFunc] at hc ⊢
    generalize he3 : Assert.events P 136 _ _ _ = e3
    have q3 : Quiet e3 := he3 ▸ Assert_events_quiet _ _ _ _ _
    generalize he4 : Assert.events P 137 _ _ _ = e4
    have q4 : Quiet e4 := he4 ▸ Assert_events_quiet _ _ _ _ _
    refine ⟨e1 ++ e2 ++ e3 ++ e4, ?_, ?_⟩
    · exact Quiet_append (Quiet_append (Quiet_append q1 q2) q3) q4
    · simp only [List.append_assoc]

theorem _SpewMessageType.dispatch_overflow (P : Platform) (spewType : SpewType_t)
    (pMsgFormat rendered : List Char) (w : World)
    (h : 5019 < (location spewType w).length + rendered.length) :
    ∃ pre, Quiet pre ∧
      _SpewMessageType.dispatch P spewType pMsgFormat rendered w =
        (w.emit pre, Dispatched.exit (Outcome.returned SPEW_ABORT)) := by
  have hw := (_SpewMessageType.write_none_iff spewType w.s_pFileName w.s_Line rendered).mpr h
  simp only [_SpewMessageType.dispatch, Assert_eq, World.emit_s_pFileName, World.emit_s_Line, hw]
  exact ⟨_, Assert_events_quiet _ _ _ _ _, rfl⟩

/-! ### Strings without NUL -/

theorem cstring_eq_self {l : List Char} (h : NUL ∉ l) : cstring l = l := by
  unfold cstring
  rw [List.takeWhile_eq_self_iff]
  intro x hx
  have : x ≠ NUL := fun e => h (e ▸ hx)
  simpa using this

theorem digitChar_ne_NUL : ∀ d, d < 10 → Nat.digitChar d ≠ NUL := by
  decide

theorem toDigitsCore_no_NUL (fuel n : Nat) (ds : List Char) (h : NUL ∉ ds) :
    NUL ∉ Nat.toDigitsCore 10 fuel n ds := by
  induction fuel generalizing n ds with
  | zero => simpa [Nat.toDigitsCore] using h
  | succ fuel ih =>
    have hd : NUL ∉ Nat.digitChar (n % 10) :: ds := by
      intro hm
      rcases List.mem_cons.mp hm with h1 | h1
      · exact digitChar_ne_NUL _ (Nat.mod_lt _ (by decide)) h1.symm
      · exact h h1
    unfold Nat.toDigitsCore
    simp only
    split_ifs with h0
    · exact hd
    · exact ih _ _ hd

theorem itoa_no_NUL (n : Int) : NUL ∉ itoa n := by
  cases n with
  | ofNat k => exact toDigitsCore_no_NUL _ _ _ (by simp)
  | negSucc k =>
    intro hm
    rcases List.mem_cons.mp hm with h1 | h1
    · exact absurd h1 (by decide)
    · exact toDigitsCore_no_NUL _ _ _ (by simp) h1

theorem CleanupAssertPath_no_NUL (pFile : List Char) (h : NUL ∉ pFile) :
    NUL ∉ CleanupAssertPath pFile := by
  rcases CleanupAssertPath.loop_spec pFile with ⟨k, _, _, hloop⟩ | ⟨_, hloop⟩
  · simp only [CleanupAssertPath, hloop]
    exact fun hm => h (List.mem_of_mem_drop hm)
  · simpa only [CleanupAssertPath, hloop] using h

/-! ### The response handling -/

theorem _SpewMessageType.respond_eq (spewType : SpewType_t) (ret : SpewRetval_t) (w : World) :
    _SpewMessageType.respond spewType ret w =
      (w.emit (_SpewMessageType.respond.events spewType ret),
        _SpewMessageType.respond.outcome ret) := by
  cases ret <;> by_cases ht : spewType = SPEW_ASSERT <;>
    simp [_SpewMessageType.respond, _SpewMessageType.respond.events,
      _SpewMessageType.respond.outcome, ht]

theorem sinkCalls_respond_events (spewType : SpewType_t) (ret : SpewRetval_t) :
    sinkCalls (_SpewMessageType.respond.events spewType ret) = [] := by
  unfold _SpewMessageType.respond.events
  split_ifs <;> rfl

theorem _SpewMessageType_fits (P : Platform) (spewType : SpewType_t)
    (pMsgFormat rendered : List Char) (w : World)
    (h : (location spewType w).length + rendered.length < 5019) :
    ∃ pre, Quiet pre ∧
      _SpewMessageType.dispatch P spewType pMsgFormat rendered w =
        (w.emit (pre ++ Event.sink w.s_SpewOutputFunc.addr spewType
            (formatted spewType rendered w) ::
            (w.s_SpewOutputFunc.run (w.trace ++ pre) spewType
              (formatted spewType rendered w)).1.map Event.printf),
          Dispatched.answered (w.s_SpewOutputFunc.run (w.trace ++ pre) spewType
            (formatted spewType rendered w)).2) ∧
      _SpewMessageType P spewType pMsgFormat rendered w =
        (w.emit (pre ++ Event.sink w.s_SpewOutputFunc.addr spewType
            (formatted spewType rendered w) ::
            (w.s_SpewOutputFunc.run (w.trace ++ pre) spewType
              (formatted spewType rendered w)).1.map Event.printf ++
            _SpewMessageType.respond.events spewType
              (w.s_SpewOutputFunc.run (w.trace ++ pre) spewType
                (formatted spewType rendered w)).2),
          _SpewMessageType.respond.outcome
            (w.s_SpewOutputFunc.run (w.trace ++ pre) spewType
              (formatted spewType rendered w)).2) := by
  obtain ⟨pre, hq, hd⟩ := _SpewMessageType.dispatch_fits P spewType pMsgFormat rendered w h
  refine ⟨pre, hq, hd, ?_⟩
  simp only [_SpewMessageType, hd, _SpewMessageType.respond_eq, World.emit_emit, formatted,
    List.append_assoc, List.cons_append]

theorem _SpewMessageType_overflow (P : Platform) (spewType : SpewType_t)
    (pMsgFormat rendered : List Char) (w : World)
    (h : 5019 < (location spewType w).length + rendered.length) :
    ∃ pre, Quiet pre ∧
      _SpewMessageType P spewType pMsgFormat rendered w =
        (w.emit pre, Outcome.returned SPEW_ABORT) := by
  obtain ⟨pre, hq, hd⟩ := _SpewMessageType.dispatch_overflow P spewType pMsgFormat rendered w h
  exact ⟨pre, hq, by simp only [_SpewMessageType, hd]⟩

theorem sinkCalls_fits (pre : List Event) (hq : Quiet pre) (addr : Nat) (spewType : SpewType_t)
    (text : List Char) (outs : List (List Char)) (ret : SpewRetval_t) (old : List Event) :
    sinkCalls (old ++ (pre ++ Event.sink addr spewType text :: outs.map Event.printf ++
      _SpewMessageType.respond.events spewType ret)) =
      sinkCalls old ++ [(addr, spewType, text)] := by
  simp [sinkCalls_append, sinkCalls, hq.1, sinkCalls_printf,
    sinkCalls_respond_events]

/-! ### What no call changes -/

theorem _SpewMessageType.dispatch_frame (P : Platform) (spewType : SpewType_t)
    (pMsgFormat rendered : List Char) (w : World) :
    ∃ es, (_SpewMessageType.dispatch P spewType pMsgFormat rendered w).1 = w.emit es ∧
      ∀ c ∈ sinkCalls es, c.1 = w.s_SpewOutputFunc.addr := by
  simp only [_SpewMessageType.dispatch, Assert_eq, World.emit_emit, World.emit_trace,
    World.emit_s_pFileName, World.emit_s_Line, World.emit_s_SpewOutputFunc]
  generalize he1 : Assert.events P 105 _ _ w.trace = e1
  have q1 : Quiet e1 := he1 ▸ Assert_events_quiet _ _ _ _ _
  split
  · exact ⟨e1, rfl, by simp [q1.1]⟩
  · rename_i buf len _
    generalize he2 : Assert.events P 125 _ _ (w.trace ++ e1) = e2
    have q2 : Quiet e2 := he2 ▸ Assert_events_quiet _ _ _ _ _
    split
    · exact ⟨e1 ++ e2, rfl, by simp [sinkCalls_append, q1.1, q2.1]⟩
    · rename_i buf2 len2 _
      cases hcs : Buffer.cstr buf2 with
      | none =>
        by_cases ht : spewType = SPEW_ASSERT
        · simp only [ht, if_true, Option.map_none']
          exact ⟨e1 ++ e2, rfl, by simp [sinkCalls_append, q1.1, q2.1]⟩
        · simp only [ht, if_false, World.emit_emit, World.emit_trace]
          generalize he3 : Assert.events P 136 _ _ _ = e3
          have q3 : Quiet e3 := he3 ▸ Assert_events_quiet _ _ _ _ _
          generalize he4 : Assert.events P 137 _ _ _ = e4
          have q4 : Quiet e4 := he4 ▸ Assert_events_quiet _ _ _ _ _
          refine ⟨_, rfl, ?_⟩
          simp [sinkCalls_append, q1.1, q2.1, q3.1, q4.1]
      | some text =>
        by_cases ht : spewType = SPEW_ASSERT
        · simp only [ht, if_true, Option.map_some', World.emit_emit, World.emit_trace,
            World.emit_s_SpewOutputFunc]
          generalize he3 : Assert.events P 136 _ _ _ = e3
          have q3 : Quiet e3 := he3 ▸ Assert_events_quiet _ _ _ _ _
          generalize he4 : Assert.events P 137 _ _ _ = e4
          have q4 : Quiet e4 := he4 ▸ Assert_events_quiet _ _ _ _ _
          refine ⟨_, rfl, ?_⟩
          simp [sinkCalls_append, sinkCalls, q1.1, q2.1, q3.1, q4.1, sinkCalls_printf]
        · simp only [ht, if_false, World.emit_emit, World.emit_trace,
            World.emit_s_SpewOutputFunc]
          generalize he3 : Assert.events P 136 _ _ _ = e3
          have q3 : Quiet e3 := he3 ▸ Assert_events_quiet _ _ _ _ _
          generalize he4 : Assert.events P 137 _ _ _ = e4
          have q4 : Quiet e4 := he4 ▸ Assert_events_quiet _ _ _ _ _
          refine ⟨_, rfl, ?_⟩
          simp [sinkCalls_append, sinkCalls, q1.1, q2.1, q3.1, q4.1, sinkCalls_printf]

theorem _SpewMessageType_frame (P : Platform) (spewType : SpewType_t)
    (pMsgFormat rendered : List Char) (w : World) :
    ∃ es, (_SpewMessageType P spewType pMsgFormat rendered w).1 = w.emit es ∧
      ∀ c ∈ sinkCalls es, c.1 = w.s_SpewOutputFunc.addr := by
  obtain ⟨es, he, hs⟩ := _SpewMessageType.dispatch_frame P spewType pMsgFormat rendered w
  unfold _SpewMessageType
  split
  · rename_i w1 o hd
    rw [hd] at he
    exact ⟨es, he, hs⟩
  · rename_i w1 ret hd
    rw [hd] at he
    simp only at he
    rw [_SpewMessageType.respond_eq, he, World.emit_emit]
    refine ⟨_, rfl, ?_⟩
    simpa [sinkCalls_append, sinkCalls_respond_events] using hs

theorem SpewCall.run_frame (P : Platform) (c : SpewCall) (w : World) :
    (c.run P w).1.s_SpewOutputFunc = w.s_SpewOutputFunc ∧
    ∃ es, (c.run P w).1.trace = w.trace ++ es ∧
      ∀ c ∈ sinkCalls es, c.1 = w.s_SpewOutputFunc.addr := by
  cases c with
  | info type pFile line => exact ⟨rfl, [], by simp [SpewCall.run, _SpewInfo], by simp [sinkCalls]⟩
  | message pMsgFormat rendered =>
    obtain ⟨es, he, hs⟩ := _SpewMessageType_frame P w.s_SpewType pMsgFormat rendered w
    simp only [SpewCall.run, _SpewMessage, he]
    exact ⟨rfl, es, rfl, hs⟩
  | messageType spewType pMsgFormat rendered =>
    obtain ⟨es, he, hs⟩ := _SpewMessageType_frame P spewType pMsgFormat rendered w
    simp only [SpewCall.run, he]
    exact ⟨rfl, es, rfl, hs⟩

theorem SpewCall.runAll_frame (P : Platform) (cs : List SpewCall) (w : World) :
    (SpewCall.runAll P cs w).1.s_SpewOutputFunc = w.s_SpewOutputFunc ∧
    ∃ es, (SpewCall.runAll P cs w).1.trace = w.trace ++ es ∧
      ∀ c ∈ sinkCalls es, c.1 = w.s_SpewOutputFunc.addr := by
  induction cs generalizing w with
  | nil => exact ⟨rfl, [], by simp [SpewCall.runAll], by simp [sinkCalls]⟩
  | cons c cs ih =>
    obtain ⟨h1, es, h2, h3⟩ := SpewCall.run_frame P c w
    unfold SpewCall.runAll
    split
    · rename_i w1 v hc
      rw [hc] at h1 h2
      simp only at h1 h2
      obtain ⟨i1, es2, i2, i3⟩ := ih w1
      refine ⟨i1.trans h1, es ++ es2, ?_, ?_⟩
      · rw [i2, h2, List.append_assoc]
      · intro x hx
        rw [sinkCalls_append] at hx
        rcases List.mem_append.mp hx with hx | hx
        · exact h3 x hx
        · rw [← h1]
          exact i3 x hx
    · rename_i w1 code hc
      rw [hc] at h1 h2
      exact ⟨h1, es, h2, h3⟩
    · rename_i w1 hc
      rw [hc] at h1 h2
      exact ⟨h1, es, h2, h3⟩

/-! ### The assert macros -/

theorem logAsserts_breakAtCallSite_events (P : Platform) (file : List Char) (line : Int)
    (msg : List Char) (tr : List Event) :
    logAsserts (breakAtCallSite.events P file line msg tr) = 0 := by
  unfold breakAtCallSite.events
  split_ifs <;> rfl

theorem _ExitOnFatalAssert_declared_never_returns (pFile : List Char) (line : Int)
    (w : World) (v : Unit) :
    (_ExitOnFatalAssert.declared pFile line w).2 ≠ Outcome.returned v := by
  simp [_ExitOnFatalAssert.declared]

theorem _ExitOnFatalAssert_never_returns (P : Platform) (pFile : List Char) (line : Int)
    (w : World) (v : Unit) : (_ExitOnFatalAssert P pFile line w).2 ≠ Outcome.returned v := by
  unfold _ExitOnFatalAssert
  simp only
  split <;> simp

theorem _AssertMsgOnce_passing (P : Platform) (file : List Char) (line : Int)
    (_msg : List Char) (_bFatal : Bool) (st : World × Bool) :
    _AssertMsgOnce P file line true _msg _bFatal st = (st, Outcome.returned ()) := by
  unfold _AssertMsgOnce _AssertMsg
  split_ifs <;> first | rfl | simp_all

theorem _AssertMsgOnce_asserted (P : Platform) (file : List Char) (line : Int) (_exp : Bool)
    (_msg : List Char) (_bFatal : Bool) (st : World × Bool) (h : st.2 = true) :
    _AssertMsgOnce P file line _exp _msg _bFatal st = (st, Outcome.returned ()) := by
  simp [_AssertMsgOnce, h]

theorem _AssertMsgOnce.evaluations_asserted (P : Platform) (file : List Char) (line : Int)
    (_bFatal : Bool) (es : List (Bool × List Char)) (st : World × Bool) (h : st.2 = true) :
    _AssertMsgOnce.evaluations P file line _bFatal es st = (st, Outcome.returned ()) := by
  induction es with
  | nil => rfl
  | cons e es ih =>
    simp only [_AssertMsgOnce.evaluations, _AssertMsgOnce_asserted P file line e.1 e.2 _bFatal st h,
      ih]

theorem _AssertMsgOnce.evaluations_passing (P : Platform) (file : List Char) (line : Int)
    (_bFatal : Bool) (es : List (Bool × List Char)) (st : World × Bool)
    (h : ∀ e ∈ es, e.1 = true) :
    _AssertMsgOnce.evaluations P file line _bFatal es st = (st, Outcome.returned ()) := by
  induction es with
  | nil => rfl
  | cons e es ih =>
    have he : e.1 = true := h e (List.mem_cons_self _ _)
    simp only [_AssertMsgOnce.evaluations, he, _AssertMsgOnce_passing,
      ih (fun x hx => h x (List.mem_cons_of_mem _ hx))]

theorem _AssertMsgOnce_failing (P : Platform) (file : List Char) (line : Int)
    (_msg : List Char) (_bFatal : Bool) (w : World) (w1 : World) (f1 : Bool) (v : Unit)
    (h : _AssertMsgOnce P file line false _msg _bFatal (w, false) =
      ((w1, f1), Outcome.returned v)) :
    f1 = true ∧ ∃ es, w1 = w.emit es ∧ logAsserts es = 1 := by
  simp only [_AssertMsgOnce, _AssertMsg, if_true, breakAtCallSite_eq, World.emit_emit,
    World.emit_trace] at h
  by_cases hr : P.Log_Assert w.trace file line _msg = LR_DEBUGGER
  · simp only [hr, if_true] at h
    cases _bFatal with
    | true =>
      simp only [if_true] at h
      have h2 : (_ExitOnFatalAssert.declared file line
          (w.emit ([Event.Log_Assert file line _msg] ++
            breakAtCallSite.events P file line _msg
              (w.trace ++ [Event.Log_Assert file line _msg])))).2 = Outcome.returned v :=
        congrArg Prod.snd h
      exact absurd h2 (_ExitOnFatalAssert_declared_never_returns file line _ v)
    | false =>
      simp only [Bool.false_eq_true, if_false] at h
      have h1 := congrArg Prod.fst h
      simp only [Prod.mk.injEq] at h1
      refine ⟨h1.2.symm, _, h1.1.symm, ?_⟩
      simp [logAsserts_append, logAsserts, logAsserts_breakAtCallSite_events]
  · simp only [hr, if_false] at h
    have h1 := congrArg Prod.fst h
    simp only [Prod.mk.injEq] at h1
    exact ⟨h1.2.symm, _, h1.1.symm, by simp [logAsserts]⟩

theorem _AssertMsgOnce.evaluations_passing_append (P : Platform) (file : List Char)
    (line : Int) (_bFatal : Bool) (a b : List (Bool × List Char)) (st : World × Bool)
    (h : ∀ e ∈ a, e.1 = true) :
    _AssertMsgOnce.evaluations P file line _bFatal (a ++ b) st =
      _AssertMsgOnce.evaluations P file line _bFatal b st := by
  induction a with
  | nil => rfl
  | cons e a ih =>
    have he : e.1 = true := h e (List.mem_cons_self _ _)
    rw [List.cons_append]
    simp only [_AssertMsgOnce.evaluations, he, _AssertMsgOnce_passing]
    exact ih (fun x hx => h x (List.mem_cons_of_mem _ hx))

theorem _AssertMsgOnce.evaluations_failing (P : Platform) (file : List Char) (line : Int)
    (_bFatal : Bool) (e : Bool × List Char) (rest : List (Bool × List Char)) (w : World)
    (he : e.1 = false)
    (h : (_AssertMsgOnce.evaluations P file line _bFatal (e :: rest) (w, false)).2 =
      Outcome.returned ()) :
    ∃ es, logAsserts es = 1 ∧
      _AssertMsgOnce P file line e.1 e.2 _bFatal (w, false) =
        ((w.emit es, true), Outcome.returned ()) ∧
      _AssertMsgOnce.evaluations P file line _bFatal (e :: rest) (w, false) =
        ((w.emit es, true), Outcome.returned ()) := by
  rw [_AssertMsgOnce.evaluations] at h ⊢
  generalize hst : _AssertMsgOnce P file line e.1 e.2 _bFatal (w, false) = r at h ⊢
  rcases r with ⟨⟨w1, f1⟩, o⟩
  cases o with
  | returned v =>
    rw [he] at hst
    obtain ⟨hf, es, hw, hl⟩ := _AssertMsgOnce_failing P file line e.2 _bFatal w w1 f1 v hst
    subst hf hw
    exact ⟨es, hl, rfl, by
      simp only [_AssertMsgOnce.evaluations_asserted P file line _bFatal rest (w.emit es, true) rfl]⟩
  | terminated code => simp at h
  | undefined => simp at h

theorem _AssertMsgOnce.evaluations_count (P : Platform) (file : List Char) (line : Int)
    (_bFatal : Bool) (es : List (Bool × List Char)) (w : World)
    (h : (_AssertMsgOnce.evaluations P file line _bFatal es (w, false)).2 =
      Outcome.returned ()) :
    logAsserts (_AssertMsgOnce.evaluations P file line _bFatal es (w, false)).1.1.trace =
      logAsserts w.trace + (if es.any (fun e => !e.1) = true then 1 else 0) ∧
    (_AssertMsgOnce.evaluations P file line _bFatal es (w, false)).1.2 =
      es.any (fun e => !e.1) := by
  induction es with
  | nil => simp [_AssertMsgOnce.evaluations]
  | cons e es ih =>
    rcases e with ⟨c, m⟩
    cases c with
    | true =>
      have hstep : _AssertMsgOnce.evaluations P file line _bFatal ((true, m) :: es) (w, false) =
          _AssertMsgOnce.evaluations P file line _bFatal es (w, false) := by
        simp only [_AssertMsgOnce.evaluations, _AssertMsgOnce_passing]
      rw [hstep] at h ⊢
      simpa using ih h
    | false =>
      obtain ⟨evs, hl, _, hr⟩ :=
        _AssertMsgOnce.evaluations_failing P file line _bFatal (false, m) es w rfl h
      rw [hr]
      simp [logAsserts_append, hl]

/-- C1: `DefaultSpewFunc` answers `SPEW_DEBUGGER` for `SPEW_ASSERT`, `SPEW_ABORT`
for `SPEW_ERROR` and `SPEW_CONTINUE` for `SPEW_MESSAGE`, `SPEW_WARNING` and
`SPEW_LOG`, whatever the text; the answer is the same for any two texts. -/
theorem DefaultSpewFunc_response (pMsg other : List Char) (type : SpewType_t) :
    (DefaultSpewFunc SPEW_ASSERT pMsg).2 = SPEW_DEBUGGER ∧
    (DefaultSpewFunc SPEW_ERROR pMsg).2 = SPEW_ABORT ∧
    (DefaultSpewFunc SPEW_MESSAGE pMsg).2 = SPEW_CONTINUE ∧
    (DefaultSpewFunc SPEW_WARNING pMsg).2 = SPEW_CONTINUE ∧
    (DefaultSpewFunc SPEW_LOG pMsg).2 = SPEW_CONTINUE ∧
    (DefaultSpewFunc type pMsg).2 = (DefaultSpewFunc type other).2 := by
  refine ⟨rfl, rfl, rfl, rfl, rfl, rfl⟩

/-- C2: `CleanupAssertPath` returns the suffix of the path starting at the first
position where the marker `\\src\\` occurs, letter case ignored; when the marker
occurs at no position it returns the path itself. -/
theorem CleanupAssertPath_first_marker (pFile : List Char) :
    (∃ k, markerAt (pFile.drop k) = true ∧ (∀ i, i < k → markerAt (pFile.drop i) = false) ∧
        CleanupAssertPath pFile = pFile.drop k) ∨
    ((∀ i, markerAt (pFile.drop i) = false) ∧ CleanupAssertPath pFile = pFile) := by
  rcases CleanupAssertPath.loop_spec pFile with ⟨k, hk, hlt, hloop⟩ | ⟨hall, hloop⟩
  · exact Or.inl ⟨k, hk, hlt, by simp [CleanupAssertPath, hloop]⟩
  · exact Or.inr ⟨hall, by simp [CleanupAssertPath, hloop]⟩

/-- C2 (witness): the first marker wins and letter case is ignored; a path
without the marker comes back whole. -/
theorem CleanupAssertPath_first_marker_witness :
    CleanupAssertPath "c:\\dev\\SRC\\game\\src\\a.cpp".toList =
      "\\SRC\\game\\src\\a.cpp".toList ∧
    CleanupAssertPath "/usr/src/a.cpp".toList = "/usr/src/a.cpp".toList := by
  decide

/-- C3 (counterexample): after `_SpewInfo(SPEW_ASSERT, "a.cpp", 7)` the call
`_SpewMessage("%s", "hi")` hands the sink `a.cpp (7) : hi` and a newline, with
a blank between the path and the parenthesis, which is not the text
`a.cpp(7) : hi` of the claim. -/
theorem _SpewMessage_assert_text_counterexample :
    sinkCalls (_SpewMessage Platform.debug "%s".toList "hi".toList
        (_SpewInfo SPEW_ASSERT "a.cpp".toList 7 World.init)).1.trace =
      [(0, SPEW_ASSERT, "a.cpp (7) : hi\n".toList)] ∧
    "a.cpp (7) : hi\n".toList ≠
      CleanupAssertPath "a.cpp".toList ++ "(".toList ++ itoa 7 ++ ") : ".toList ++
        "hi".toList ++ "\n".toList := by
  decide

/-- C3 (amended): after `_SpewInfo(SPEW_ASSERT, path, line)`, a `_SpewMessage`
whose rendered message `m` fits (the whole text and its NUL fit the 5020 cells)
hands the sink exactly `CleanupAssertPath(path)`, a blank, `(`, the decimal line
number, `) : `, `m` and a newline, and calls it once. -/
theorem _SpewMessage_assert_text (P : Platform) (pFile : List Char) (line : Int)
    (pMsgFormat m : List Char) (w : World) (hp : NUL ∉ pFile) (hm : NUL ∉ m)
    (hfit : (CleanupAssertPath pFile ++ " (".toList ++ itoa line ++ ") : ".toList ++ m ++
      "\n".toList).length < 5020) :
    sinkCalls (_SpewMessage P pMsgFormat m (_SpewInfo SPEW_ASSERT pFile line w)).1.trace =
      sinkCalls w.trace ++ [(w.s_SpewOutputFunc.addr, SPEW_ASSERT,
        CleanupAssertPath pFile ++ " (".toList ++ itoa line ++ ") : ".toList ++ m ++
          "\n".toList)] := by
  have hloc : location SPEW_ASSERT (_SpewInfo SPEW_ASSERT pFile line w) =
      CleanupAssertPath pFile ++ " (".toList ++ itoa line ++ ") : ".toList := by
    simp [location, _SpewInfo, header, showStr]
  have hfits : (location SPEW_ASSERT (_SpewInfo SPEW_ASSERT pFile line w)).length + m.length
      < 5019 := by
    rw [hloc]
    simp only [List.length_append] at hfit ⊢
    have : "\n".toList.length = 1 := by decide
    omega
  obtain ⟨pre, hq, _, hr⟩ := _SpewMessageType_fits P SPEW_ASSERT pMsgFormat m
    (_SpewInfo SPEW_ASSERT pFile line w) hfits
  have hnul : NUL ∉ CleanupAssertPath pFile ++ " (".toList ++ itoa line ++ ") : ".toList ++ m ++
      "\n".toList := by
    have h1 := CleanupAssertPath_no_NUL pFile hp
    have h2 := itoa_no_NUL line
    have h3 : NUL ∉ " (".toList := by decide
    have h4 : NUL ∉ ") : ".toList := by decide
    have h5 : NUL ∉ "\n".toList := by decide
    simp only [List.mem_append, not_or]
    exact ⟨⟨⟨⟨⟨h1, h3⟩, h2⟩, h4⟩, hm⟩, h5⟩
  have htext : formatted SPEW_ASSERT m (_SpewInfo SPEW_ASSERT pFile line w) =
      CleanupAssertPath pFile ++ " (".toList ++ itoa line ++ ") : ".toList ++ m ++
        "\n".toList := by
    unfold formatted
    rw [hloc]
    have : lineEnd SPEW_ASSERT = "\n".toList := by decide
    rw [this]
    exact cstring_eq_self hnul
  have hs : (_SpewInfo SPEW_ASSERT pFile line w).s_SpewType = SPEW_ASSERT := rfl
  have ha : (_SpewInfo SPEW_ASSERT pFile line w).s_SpewOutputFunc = w.s_SpewOutputFunc := rfl
  have ht : (_SpewInfo SPEW_ASSERT pFile line w).trace = w.trace := rfl
  rw [_SpewMessage, hs, hr, World.emit_trace, sinkCalls_fits _ hq, htext, ha, ht]

/-- C3 (witness): the amended statement at the path `c:\dev\SRC\a.cpp`, line 42
and message `x > 0`, from the state of a fresh process. -/
theorem _SpewMessage_assert_text_witness :
    sinkCalls (_SpewMessage Platform.debug "%s".toList "x > 0".toList
        (_SpewInfo SPEW_ASSERT "c:\\dev\\SRC\\a.cpp".toList 42 World.init)).1.trace =
      sinkCalls World.init.trace ++ [(World.init.s_SpewOutputFunc.addr, SPEW_ASSERT,
        CleanupAssertPath "c:\\dev\\SRC\\a.cpp".toList ++ " (".toList ++ itoa 42 ++
          ") : ".toList ++ "x > 0".toList ++ "\n".toList)] :=
  _SpewMessage_assert_text Platform.debug "c:\\dev\\SRC\\a.cpp".toList 42 "%s".toList
    "x > 0".toList World.init (by decide) (by decide) (by decide)

/-- C4: when the location does not fit the buffer or the rendered message does
not fit the space left (one of the two bounded writes returns -1),
`_SpewMessageType` does not call the installed sink and returns `SPEW_ABORT`. -/
theorem _SpewMessageType_overflow_no_sink (P : Platform) (spewType : SpewType_t)
    (pMsgFormat rendered : List Char) (w : World)
    (h : 5019 < (location spewType w).length ∨
      5019 - (location spewType w).length < rendered.length) :
    _SpewMessageType.write spewType w.s_pFileName w.s_Line rendered = none ∧
    sinkCalls (_SpewMessageType P spewType pMsgFormat rendered w).1.trace = sinkCalls w.trace ∧
    (_SpewMessageType P spewType pMsgFormat rendered w).2 = Outcome.returned SPEW_ABORT := by
  have h1 : 5019 < (location spewType w).length + rendered.length := by omega
  obtain ⟨pre, hq, hr⟩ := _SpewMessageType_overflow P spewType pMsgFormat rendered w h1
  refine ⟨(_SpewMessageType.write_none_iff spewType w.s_pFileName w.s_Line rendered).mpr h1,
    ?_, ?_⟩
  · rw [hr, World.emit_trace, sinkCalls_append, hq.1, List.append_nil]
  · rw [hr]

/-- C4 (witness): a `SPEW_MESSAGE` of 5020 characters in a fresh process. -/
theorem _SpewMessageType_overflow_no_sink_witness :
    _SpewMessageType.write SPEW_MESSAGE World.init.s_pFileName World.init.s_Line
      (List.replicate 5020 'a') = none ∧
    sinkCalls (_SpewMessageType Platform.debug SPEW_MESSAGE "%s".toList
      (List.replicate 5020 'a') World.init).1.trace = sinkCalls World.init.trace ∧
    (_SpewMessageType Platform.debug SPEW_MESSAGE "%s".toList
      (List.replicate 5020 'a') World.init).2 = Outcome.returned SPEW_ABORT :=
  _SpewMessageType_overflow_no_sink Platform.debug SPEW_MESSAGE "%s".toList
    (List.replicate 5020 'a') World.init
    (Or.inr (by rw [List.length_replicate]; exact Nat.lt_of_le_of_lt (Nat.sub_le _ _) (by decide)))

/-- C5 (counterexample): a `SPEW_MESSAGE` whose rendering has 5020 characters
overflows the buffer; `_SpewMessageType` returns `SPEW_ABORT` to its caller and
the process is not terminated: the trace stays empty. -/
theorem _SpewMessageType_overflow_counterexample :
    _SpewMessageType.write SPEW_MESSAGE World.init.s_pFileName World.init.s_Line
      (List.replicate 5020 'a') = none ∧
    (_SpewMessageType Platform.debug SPEW_MESSAGE "%s".toList
      (List.replicate 5020 'a') World.init).2 = Outcome.returned SPEW_ABORT ∧
    (_SpewMessageType Platform.debug SPEW_MESSAGE "%s".toList
      (List.replicate 5020 'a') World.init).2 ≠ Outcome.terminated EXIT_FAILURE ∧
    (_SpewMessageType Platform.debug SPEW_MESSAGE "%s".toList
      (List.replicate 5020 'a') World.init).1.trace = [] := by
  have hw : _SpewMessageType.write SPEW_MESSAGE World.init.s_pFileName World.init.s_Line
      (List.replicate 5020 'a') = none := by
    rw [_SpewMessageType.write_none_iff, List.length_replicate]
    decide
  have ha : Assert Platform.debug 105 "_tcslen(pMsgFormat) < sizeof(pTempBuffer)"
      (decide ("%s".toList.length < 5020)) World.init = World.init := by
    rfl
  have hr : _SpewMessageType Platform.debug SPEW_MESSAGE "%s".toList
      (List.replicate 5020 'a') World.init = (World.init, Outcome.returned SPEW_ABORT) := by
    simp only [_SpewMessageType, _SpewMessageType.dispatch, ha, hw]
  refine ⟨hw, ?_, ?_, ?_⟩
  · rw [hr]
  · rw [hr]
    decide
  · rw [hr]
    rfl

/-- C5 (amended): when formatting fails, `_SpewMessageType` does not terminate
the process: it returns `SPEW_ABORT` to its caller, issues no
`TerminateProcess`, and leaves the statics as they were. -/
theorem _SpewMessageType_overflow_returns (P : Platform) (spewType : SpewType_t)
    (pMsgFormat rendered : List Char) (w : World)
    (h : 5019 < (location spewType w).length ∨
      5019 - (location spewType w).length < rendered.length) :
    ∃ es, (_SpewMessageType P spewType pMsgFormat rendered w) =
        (w.emit es, Outcome.returned SPEW_ABORT) ∧
      ∀ code, Event.TerminateProcess code ∉ es := by
  have h1 : 5019 < (location spewType w).length + rendered.length := by omega
  obtain ⟨pre, hq, hr⟩ := _SpewMessageType_overflow P spewType pMsgFormat rendered w h1
  exact ⟨pre, hr, hq.2⟩

/-- C5 (witness): an assertion at `a.cpp`, line 7, whose message has 5019
characters. -/
theorem _SpewMessageType_overflow_returns_witness :
    ∃ es, (_SpewMessageType Platform.debug SPEW_ASSERT "%s".toList (List.replicate 5019 'x')
        (_SpewInfo SPEW_ASSERT "a.cpp".toList 7 World.init)) =
        ((_SpewInfo SPEW_ASSERT "a.cpp".toList 7 World.init).emit es,
          Outcome.returned SPEW_ABORT) ∧
      ∀ code, Event.TerminateProcess code ∉ es :=
  _SpewMessageType_overflow_returns Platform.debug SPEW_ASSERT "%s".toList
    (List.replicate 5019 'x') (_SpewInfo SPEW_ASSERT "a.cpp".toList 7 World.init)
    (Or.inr (by
      have h : (location SPEW_ASSERT (_SpewInfo SPEW_ASSERT "a.cpp".toList 7 World.init)).length
          = 12 := by decide
      rw [List.length_replicate, h]
      decide))

/-- C6: when the text fits, `_SpewMessageType` calls the installed sink exactly
once, with the kind it was given and the formatted text, and when it returns
to its caller it returns the answer of that call; it does return unless the
answer is `SPEW_ABORT`. -/
theorem _SpewMessageType_invokes_sink_once (P : Platform) (spewType : SpewType_t)
    (pMsgFormat rendered : List Char) (w : World)
    (h : (location spewType w).length + rendered.length < 5019) :
    ∃ pre post, Quiet pre ∧ sinkCalls post = [] ∧
      (_SpewMessageType P spewType pMsgFormat rendered w).1.trace =
        w.trace ++ pre ++ Event.sink w.s_SpewOutputFunc.addr spewType
          (formatted spewType rendered w) ::
          (w.s_SpewOutputFunc.run (w.trace ++ pre) spewType
            (formatted spewType rendered w)).1.map Event.printf ++ post ∧
      sinkCalls (_SpewMessageType P spewType pMsgFormat rendered w).1.trace =
        sinkCalls w.trace ++ [(w.s_SpewOutputFunc.addr, spewType,
          formatted spewType rendered w)] ∧
      (∀ v, (_SpewMessageType P spewType pMsgFormat rendered w).2 = Outcome.returned v →
        v = (w.s_SpewOutputFunc.run (w.trace ++ pre) spewType
          (formatted spewType rendered w)).2) ∧
      ((w.s_SpewOutputFunc.run (w.trace ++ pre) spewType
          (formatted spewType rendered w)).2 ≠ SPEW_ABORT →
        (_SpewMessageType P spewType pMsgFormat rendered w).2 =
          Outcome.returned (w.s_SpewOutputFunc.run (w.trace ++ pre) spewType
            (formatted spewType rendered w)).2) := by
  obtain ⟨pre, hq, _, hr⟩ := _SpewMessageType_fits P spewType pMsgFormat rendered w h
  refine ⟨pre, _SpewMessageType.respond.events spewType
    (w.s_SpewOutputFunc.run (w.trace ++ pre) spewType (formatted spewType rendered w)).2,
    hq, sinkCalls_respond_events _ _, ?_, ?_, ?_, ?_⟩
  · rw [hr]
    simp only [World.emit_trace, List.append_assoc, List.cons_append]
  · rw [hr, World.emit_trace, sinkCalls_fits _ hq]
  · intro v hv
    rw [hr] at hv
    unfold _SpewMessageType.respond.outcome at hv
    split_ifs at hv with h1
    exact (Outcome.returned.inj hv).symm
  · intro hne
    rw [hr]
    simp only [_SpewMessageType.respond.outcome, hne, if_false]

/-- C6 (witness): a `SPEW_WARNING` in a fresh process, whose sink is
`DefaultSpewFunc`. -/
theorem _SpewMessageType_invokes_sink_once_witness :
    sinkCalls (_SpewMessageType Platform.debug SPEW_WARNING "%s".toList "low fuel".toList
      World.init).1.trace = [(0, SPEW_WARNING, "low fuel".toList)] ∧
    (_SpewMessageType Platform.debug SPEW_WARNING "%s".toList "low fuel".toList
      World.init).2 = Outcome.returned SPEW_CONTINUE := by
  obtain ⟨pre, post, _, _, _, hs, _, hret⟩ :=
    _SpewMessageType_invokes_sink_once Platform.debug SPEW_WARNING "%s".toList
      "low fuel".toList World.init (by decide)
  have hc : (World.init.s_SpewOutputFunc.run (World.init.trace ++ pre) SPEW_WARNING
      (formatted SPEW_WARNING "low fuel".toList World.init)).2 = SPEW_CONTINUE := rfl
  exact ⟨hs, by rw [hret (by rw [hc]; decide), hc]⟩

/-- C7: when the text fits, lines 95-140 end with the answer `ret` of the sink
in a world `wd`, and the response handling that follows adds `DebuggerBreak`
if and only if `ret` is `SPEW_DEBUGGER` and the kind is not `SPEW_ASSERT`; for
`SPEW_DEBUGGER` on a `SPEW_ASSERT` it adds nothing and returns `SPEW_DEBUGGER`,
and for `SPEW_CONTINUE` it adds nothing and returns `SPEW_CONTINUE`. -/
theorem _SpewMessageType_break_iff (P : Platform) (spewType : SpewType_t)
    (pMsgFormat rendered : List Char) (w : World)
    (h : (location spewType w).length + rendered.length < 5019) :
    ∃ pre wd ret post, Quiet pre ∧
      ret = (w.s_SpewOutputFunc.run (w.trace ++ pre) spewType
        (formatted spewType rendered w)).2 ∧
      _SpewMessageType.dispatch P spewType pMsgFormat rendered w =
        (wd, Dispatched.answered ret) ∧
      _SpewMessageType P spewType pMsgFormat rendered w =
        _SpewMessageType.respond spewType ret wd ∧
      (_SpewMessageType P spewType pMsgFormat rendered w).1 = wd.emit post ∧
      (Event.DebuggerBreak ∈ post ↔ (ret = SPEW_DEBUGGER ∧ spewType ≠ SPEW_ASSERT)) ∧
      (ret = SPEW_DEBUGGER → spewType = SPEW_ASSERT → post = [] ∧
        (_SpewMessageType P spewType pMsgFormat rendered w).2 =
          Outcome.returned SPEW_DEBUGGER) ∧
      (ret = SPEW_CONTINUE → post = [] ∧
        (_SpewMessageType P spewType pMsgFormat rendered w).2 =
          Outcome.returned SPEW_CONTINUE) := by
  obtain ⟨pre, hq, hd, _⟩ := _SpewMessageType_fits P spewType pMsgFormat rendered w h
  have hr : _SpewMessageType P spewType pMsgFormat rendered w =
      _SpewMessageType.respond spewType
        (w.s_SpewOutputFunc.run (w.trace ++ pre) spewType (formatted spewType rendered w)).2
        (w.emit (pre ++ Event.sink w.s_SpewOutputFunc.addr spewType
          (formatted spewType rendered w) ::
          (w.s_SpewOutputFunc.run (w.trace ++ pre) spewType
            (formatted spewType rendered w)).1.map Event.printf)) := by
    simp only [_SpewMessageType, hd]
  refine ⟨pre, _, _, _SpewMessageType.respond.events spewType
    (w.s_SpewOutputFunc.run (w.trace ++ pre) spewType (formatted spewType rendered w)).2,
    hq, rfl, hd, hr, ?_, ?_, ?_, ?_⟩
  · rw [hr, _SpewMessageType.respond_eq]
  · unfold _SpewMessageType.respond.events
    split_ifs with h1 h2
    · simp [h1]
    · simp [h1]
    · simp [h1]
  · intro h1 h2
    subst h2
    rw [hr, _SpewMessageType.respond_eq]
    simp [_SpewMessageType.respond.events, _SpewMessageType.respond.outcome, h1]
  · intro h1
    rw [hr, _SpewMessageType.respond_eq]
    simp [_SpewMessageType.respond.events, _SpewMessageType.respond.outcome, h1]

/-- C7 (witness): a `SPEW_WARNING` sent to a sink that always answers
`SPEW_DEBUGGER`. -/
theorem _SpewMessageType_break_iff_witness :
    (location SPEW_WARNING (SpewOutputFunc breakingSink World.init)).length +
      "low fuel".toList.length < 5019 ∧
    ∃ pre wd ret post, Quiet pre ∧
      ret = ((SpewOutputFunc breakingSink World.init).s_SpewOutputFunc.run
        ((SpewOutputFunc breakingSink World.init).trace ++ pre) SPEW_WARNING
        (formatted SPEW_WARNING "low fuel".toList (SpewOutputFunc breakingSink World.init))).2 ∧
      _SpewMessageType.dispatch Platform.debug SPEW_WARNING "%s".toList "low fuel".toList
          (SpewOutputFunc breakingSink World.init) = (wd, Dispatched.answered ret) ∧
      _SpewMessageType Platform.debug SPEW_WARNING "%s".toList "low fuel".toList
          (SpewOutputFunc breakingSink World.init) =
        _SpewMessageType.respond SPEW_WARNING ret wd ∧
      (_SpewMessageType Platform.debug SPEW_WARNING "%s".toList "low fuel".toList
          (SpewOutputFunc breakingSink World.init)).1 = wd.emit post ∧
      (Event.DebuggerBreak ∈ post ↔ (ret = SPEW_DEBUGGER ∧ SPEW_WARNING ≠ SPEW_ASSERT)) ∧
      (ret = SPEW_DEBUGGER → SPEW_WARNING = SPEW_ASSERT → post = [] ∧
        (_SpewMessageType Platform.debug SPEW_WARNING "%s".toList "low fuel".toList
          (SpewOutputFunc breakingSink World.init)).2 = Outcome.returned SPEW_DEBUGGER) ∧
      (ret = SPEW_CONTINUE → post = [] ∧
        (_SpewMessageType Platform.debug SPEW_WARNING "%s".toList "low fuel".toList
          (SpewOutputFunc breakingSink World.init)).2 = Outcome.returned SPEW_CONTINUE) :=
  ⟨by decide, _SpewMessageType_break_iff Platform.debug SPEW_WARNING "%s".toList
    "low fuel".toList (SpewOutputFunc breakingSink World.init) (by decide)⟩

/-- C8: when the text fits and the sink answers `SPEW_ABORT`, `_SpewMessageType`
ends the process with `TerminateProcess(..., EXIT_FAILURE)` as its last act and
does not return; when the sink answers `SPEW_CONTINUE` or `SPEW_DEBUGGER` it
returns that answer and issues no `TerminateProcess`. -/
theorem _SpewMessageType_abort_iff (P : Platform) (spewType : SpewType_t)
    (pMsgFormat rendered : List Char) (w : World)
    (h : (location spewType w).length + rendered.length < 5019) :
    ∃ pre es ret, Quiet pre ∧
      ret = (w.s_SpewOutputFunc.run (w.trace ++ pre) spewType
        (formatted spewType rendered w)).2 ∧
      (_SpewMessageType P spewType pMsgFormat rendered w).1 = w.emit es ∧
      (ret = SPEW_ABORT →
        (_SpewMessageType P spewType pMsgFormat rendered w).2 =
          Outcome.terminated EXIT_FAILURE ∧
        ∃ before, es = before ++ [Event.TerminateProcess EXIT_FAILURE]) ∧
      (ret = SPEW_CONTINUE ∨ ret = SPEW_DEBUGGER →
        (_SpewMessageType P spewType pMsgFormat rendered w).2 = Outcome.returned ret ∧
        ∀ code, Event.TerminateProcess code ∉ es) := by
  obtain ⟨pre, hq, _, hr⟩ := _SpewMessageType_fits P spewType pMsgFormat rendered w h
  refine ⟨pre, _, _, hq, rfl, by rw [hr], ?_, ?_⟩
  · intro h1
    rw [hr]
    refine ⟨by simp [_SpewMessageType.respond.outcome, h1],
      pre ++ Event.sink w.s_SpewOutputFunc.addr spewType (formatted spewType rendered w) ::
        List.map Event.printf
          (w.s_SpewOutputFunc.run (w.trace ++ pre) spewType (formatted spewType rendered w)).1,
      ?_⟩
    simp [_SpewMessageType.respond.events, h1]
  · intro h1
    have hne : (w.s_SpewOutputFunc.run (w.trace ++ pre) spewType
        (formatted spewType rendered w)).2 ≠ SPEW_ABORT := by
      rcases h1 with h1 | h1 <;> rw [h1] <;> decide
    rw [hr]
    refine ⟨by simp [_SpewMessageType.respond.outcome, hne], fun code => ?_⟩
    have hpre := hq.2 code
    unfold _SpewMessageType.respond.events
    split_ifs with h2
    · simpa using hpre
    · simpa using hpre

/-- C8 (witness): a `SPEW_ERROR` in a fresh process; `DefaultSpewFunc` answers
`SPEW_ABORT`. -/
theorem _SpewMessageType_abort_iff_witness :
    (location SPEW_ERROR World.init).length + "disk full".toList.length < 5019 ∧
    ∃ pre es ret, Quiet pre ∧
      ret = (World.init.s_SpewOutputFunc.run (World.init.trace ++ pre) SPEW_ERROR
        (formatted SPEW_ERROR "disk full".toList World.init)).2 ∧
      (_SpewMessageType Platform.debug SPEW_ERROR "%s".toList "disk full".toList
        World.init).1 = World.init.emit es ∧
      (ret = SPEW_ABORT →
        (_SpewMessageType Platform.debug SPEW_ERROR "%s".toList "disk full".toList
          World.init).2 = Outcome.terminated EXIT_FAILURE ∧
        ∃ before, es = before ++ [Event.TerminateProcess EXIT_FAILURE]) ∧
      (ret = SPEW_CONTINUE ∨ ret = SPEW_DEBUGGER →
        (_SpewMessageType Platform.debug SPEW_ERROR "%s".toList "disk full".toList
          World.init).2 = Outcome.returned ret ∧
        ∀ code, Event.TerminateProcess code ∉ es) :=
  ⟨by decide, _SpewMessageType_abort_iff Platform.debug SPEW_ERROR "%s".toList
    "disk full".toList World.init (by decide)⟩

/-- C9: in a fresh process the installed sink is `DefaultSpewFunc`;
`SpewOutputFunc(S2)` installs `S2` and leaves the stored kind, path and line
(and the trace) as they were; after it, whatever calls of `_SpewInfo`,
`_SpewMessage` and `_SpewMessageType` follow, `S2` stays installed and every
call of a sink they make is a call of `S2`, none of the sink installed before
when that is another function; and a dispatch made after them whose text fits
calls `S2` exactly once. -/
theorem SpewOutputFunc_replaces (P : Platform) (S2 : SpewOutputFunc_t) (w : World)
    (calls : List SpewCall) (spewType : SpewType_t) (pMsgFormat rendered : List Char)
    (h : (location spewType (SpewCall.runAll P calls (SpewOutputFunc S2 w)).1).length +
      rendered.length < 5019) :
    World.init.s_SpewOutputFunc = DefaultSpewFunc.ptr ∧
    SpewOutputFunc S2 w = { w with s_SpewOutputFunc := S2 } ∧
    (SpewOutputFunc S2 w).s_pFileName = w.s_pFileName ∧
    (SpewOutputFunc S2 w).s_Line = w.s_Line ∧
    (SpewOutputFunc S2 w).s_SpewType = w.s_SpewType ∧
    (SpewCall.runAll P calls (SpewOutputFunc S2 w)).1.s_SpewOutputFunc = S2 ∧
    (∃ es, (SpewCall.runAll P calls (SpewOutputFunc S2 w)).1.trace = w.trace ++ es ∧
      ∀ c ∈ sinkCalls es, c.1 = S2.addr ∧
        (w.s_SpewOutputFunc.addr ≠ S2.addr → c.1 ≠ w.s_SpewOutputFunc.addr)) ∧
    sinkCalls (_SpewMessageType P spewType pMsgFormat rendered
        (SpewCall.runAll P calls (SpewOutputFunc S2 w)).1).1.trace =
      sinkCalls (SpewCall.runAll P calls (SpewOutputFunc S2 w)).1.trace ++
        [(S2.addr, spewType,
          formatted spewType rendered (SpewCall.runAll P calls (SpewOutputFunc S2 w)).1)] := by
  obtain ⟨h1, es, h2, h3⟩ := SpewCall.runAll_frame P calls (SpewOutputFunc S2 w)
  have hS : (SpewOutputFunc S2 w).s_SpewOutputFunc = S2 := rfl
  rw [hS] at h1 h3
  refine ⟨rfl, rfl, rfl, rfl, rfl, h1, ⟨es, h2, fun c hc => ⟨h3 c hc, fun hne => ?_⟩⟩, ?_⟩
  · rw [h3 c hc]
    exact fun e => hne e.symm
  · obtain ⟨pre, hq, _, hr⟩ := _SpewMessageType_fits P spewType pMsgFormat rendered
      (SpewCall.runAll P calls (SpewOutputFunc S2 w)).1 h
    rw [hr, World.emit_trace, sinkCalls_fits _ hq, h1]

/-- C9 (witness): in a fresh process `breakingSink` is installed, an assertion
is reported, and then a warning is dispatched: both reach `breakingSink`
(address 1), none reaches `DefaultSpewFunc` (address 0). -/
theorem SpewOutputFunc_replaces_witness :
    sinkCalls (_SpewMessageType Platform.debug SPEW_WARNING "%s".toList "low fuel".toList
        (SpewCall.runAll Platform.debug
          [SpewCall.info SPEW_ASSERT "a.cpp".toList 7, SpewCall.message "%s".toList "x > 0".toList]
          (SpewOutputFunc breakingSink World.init)).1).1.trace =
      [(1, SPEW_ASSERT, "a.cpp (7) : x > 0\n".toList), (1, SPEW_WARNING, "low fuel".toList)] := by
  have h := (SpewOutputFunc_replaces Platform.debug breakingSink World.init
    [SpewCall.info SPEW_ASSERT "a.cpp".toList 7, SpewCall.message "%s".toList "x > 0".toList]
    SPEW_WARNING "%s".toList "low fuel".toList (by decide)).2.2.2.2.2.2.2
  rw [h]
  decide

/-- C10: for a sequence of evaluations of one `_AssertMsgOnce` call site that
the process survives, the number of `Log_Assert` dispatches is 1 when some
condition is false and 0 otherwise, and the flag ends set exactly in the first
case. In detail, at the first failing evaluation: the passing evaluations
before it change nothing and leave the flag unset, the failing one dispatches
once and sets the flag, and the evaluations after it change nothing. -/
theorem _AssertMsgOnce_dispatches_once (P : Platform) (file : List Char) (line : Int)
    (_bFatal : Bool) (es : List (Bool × List Char)) (w : World)
    (h : (_AssertMsgOnce.evaluations P file line _bFatal es (w, false)).2 =
      Outcome.returned ()) :
    logAsserts (_AssertMsgOnce.evaluations P file line _bFatal es (w, false)).1.1.trace =
      logAsserts w.trace + (if es.any (fun e => !e.1) = true then 1 else 0) ∧
    (_AssertMsgOnce.evaluations P file line _bFatal es (w, false)).1.2 =
      es.any (fun e => !e.1) ∧
    ∀ passing failing rest, es = passing ++ failing :: rest →
      (∀ e ∈ passing, e.1 = true) → failing.1 = false →
      _AssertMsgOnce.evaluations P file line _bFatal passing (w, false) =
        ((w, false), Outcome.returned ()) ∧
      ∃ evs, logAsserts evs = 1 ∧
        _AssertMsgOnce P file line failing.1 failing.2 _bFatal (w, false) =
          ((w.emit evs, true), Outcome.returned ()) ∧
        _AssertMsgOnce.evaluations P file line _bFatal rest (w.emit evs, true) =
          ((w.emit evs, true), Outcome.returned ()) ∧
        _AssertMsgOnce.evaluations P file line _bFatal es (w, false) =
          ((w.emit evs, true), Outcome.returned ()) := by
  obtain ⟨h1, h2⟩ := _AssertMsgOnce.evaluations_count P file line _bFatal es w h
  refine ⟨h1, h2, ?_⟩
  intro passing failing rest hes hpass hfail
  subst hes
  rw [_AssertMsgOnce.evaluations_passing_append P file line _bFatal passing _ _ hpass] at h ⊢
  obtain ⟨evs, hl, hone, hall⟩ :=
    _AssertMsgOnce.evaluations_failing P file line _bFatal failing rest w hfail h
  exact ⟨_AssertMsgOnce.evaluations_passing P file line _bFatal passing _ hpass, evs, hl, hone,
    _AssertMsgOnce.evaluations_asserted P file line _bFatal rest _ rfl, hall⟩

/-- C10 (witness): four evaluations of a non-fatal call site at `a.cpp`, line 7,
the second and third failing: one dispatch, and the flag ends set. -/
theorem _AssertMsgOnce_dispatches_once_witness :
    (_AssertMsgOnce.evaluations Platform.debug "a.cpp".toList 7 false
      [(true, "x > 0".toList), (false, "x > 0".toList), (false, "x > 0".toList),
        (true, "x > 0".toList)] (World.init, false)).2 = Outcome.returned () ∧
    logAsserts (_AssertMsgOnce.evaluations Platform.debug "a.cpp".toList 7 false
      [(true, "x > 0".toList), (false, "x > 0".toList), (false, "x > 0".toList),
        (true, "x > 0".toList)] (World.init, false)).1.1.trace = 1 ∧
    (_AssertMsgOnce.evaluations Platform.debug "a.cpp".toList 7 false
      [(true, "x > 0".toList), (false, "x > 0".toList), (false, "x > 0".toList),
        (true, "x > 0".toList)] (World.init, false)).1.2 = true :=
  ⟨by decide,
    (_AssertMsgOnce_dispatches_once Platform.debug "a.cpp".toList 7 false
      [(true, "x > 0".toList), (false, "x > 0".toList), (false, "x > 0".toList),
        (true, "x > 0".toList)] World.init (by decide)).1,
    (_AssertMsgOnce_dispatches_once Platform.debug "a.cpp".toList 7 false
      [(true, "x > 0".toList), (false, "x > 0".toList), (false, "x > 0".toList),
        (true, "x > 0".toList)] World.init (by decide)).2.1⟩

/-! ### `_ExitOnFatalAssert` -/

theorem _ExitOnFatalAssert_fits (P : Platform) (pFile : List Char) (line : Int) (w : World)
    (h : (location w.s_SpewType w).length + (fatalMessage pFile line).length < 5019) :
    ∃ pre mid, Quiet pre ∧ sinkCalls mid = [] ∧
      _ExitOnFatalAssert P pFile line w =
        (w.emit (pre ++ Event.sink w.s_SpewOutputFunc.addr w.s_SpewType
            (formatted w.s_SpewType (fatalMessage pFile line) w) ::
            (w.s_SpewOutputFunc.run (w.trace ++ pre) w.s_SpewType
              (formatted w.s_SpewType (fatalMessage pFile line) w)).1.map Event.printf ++
            mid ++ [Event.TerminateProcess EXIT_FAILURE]),
          Outcome.terminated EXIT_FAILURE) := by
  obtain ⟨pre, hq, _, hr⟩ := _SpewMessageType_fits P w.s_SpewType
    "Fatal assert failed: %s, line %d.  Application exiting.\n".toList
    (fatalMessage pFile line) w h
  generalize hret : (w.s_SpewOutputFunc.run (w.trace ++ pre) w.s_SpewType
    (formatted w.s_SpewType (fatalMessage pFile line) w)).2 = ret at hr
  have hm : _SpewMessage P "Fatal assert failed: %s, line %d.  Application exiting.\n".toList
      (fatalMessage pFile line) w = _SpewMessageType P w.s_SpewType
      "Fatal assert failed: %s, line %d.  Application exiting.\n".toList
      (fatalMessage pFile line) w := rfl
  have hu : _ExitOnFatalAssert P pFile line w =
      (match _SpewMessage P "Fatal assert failed: %s, line %d.  Application exiting.\n".toList
          (fatalMessage pFile line) w with
        | (w1, Outcome.returned _) =>
          (w1.emit [Event.TerminateProcess EXIT_FAILURE], Outcome.terminated EXIT_FAILURE)
        | (w1, Outcome.terminated code) => (w1, Outcome.terminated code)
        | (w1, Outcome.undefined) => (w1, Outcome.undefined)) := rfl
  rw [hu, hm, hr]
  cases ret with
  | SPEW_ABORT =>
    refine ⟨pre, [], hq, rfl, ?_⟩
    simp [_SpewMessageType.respond.events, _SpewMessageType.respond.outcome]
  | SPEW_DEBUGGER =>
    refine ⟨pre, _SpewMessageType.respond.events w.s_SpewType SPEW_DEBUGGER, hq,
      sinkCalls_respond_events _ _, ?_⟩
    simp [_SpewMessageType.respond.outcome]
  | SPEW_CONTINUE =>
    refine ⟨pre, _SpewMessageType.respond.events w.s_SpewType SPEW_CONTINUE, hq,
      sinkCalls_respond_events _ _, ?_⟩
    simp [_SpewMessageType.respond.outcome]

theorem _ExitOnFatalAssert_overflow (P : Platform) (pFile : List Char) (line : Int)
    (w : World)
    (h : 5019 < (location w.s_SpewType w).length + (fatalMessage pFile line).length) :
    ∃ pre, Quiet pre ∧
      _ExitOnFatalAssert P pFile line w =
        (w.emit (pre ++ [Event.TerminateProcess EXIT_FAILURE]),
          Outcome.terminated EXIT_FAILURE) := by
  obtain ⟨pre, hq, hr⟩ := _SpewMessageType_overflow P w.s_SpewType
    "Fatal assert failed: %s, line %d.  Application exiting.\n".toList
    (fatalMessage pFile line) w h
  have hu : _ExitOnFatalAssert P pFile line w =
      (match _SpewMessageType P w.s_SpewType
          "Fatal assert failed: %s, line %d.  Application exiting.\n".toList
          (fatalMessage pFile line) w with
        | (w1, Outcome.returned _) =>
          (w1.emit [Event.TerminateProcess EXIT_FAILURE], Outcome.terminated EXIT_FAILURE)
        | (w1, Outcome.terminated code) => (w1, Outcome.terminated code)
        | (w1, Outcome.undefined) => (w1, Outcome.undefined)) := rfl
  rw [hu, hr]
  exact ⟨pre, hq, by simp⟩

theorem _ExitOnFatalAssert_exits (P : Platform) (pFile : List Char) (line : Int) (w : World)
    (h : (location w.s_SpewType w).length + (fatalMessage pFile line).length ≠ 5019) :
    ∃ before, _ExitOnFatalAssert P pFile line w =
      (w.emit (before ++ [Event.TerminateProcess EXIT_FAILURE]),
        Outcome.terminated EXIT_FAILURE) := by
  rcases Nat.lt_or_gt_of_ne h with h1 | h1
  · obtain ⟨pre, mid, _, _, hr⟩ := _ExitOnFatalAssert_fits P pFile line w h1
    exact ⟨_, hr⟩
  · obtain ⟨pre, _, hr⟩ := _ExitOnFatalAssert_overflow P pFile line w h1
    exact ⟨pre, hr⟩

/-- C11: a failing evaluation of a fatal `_AssertMsg` to which `Log_Assert`
answers `LR_DEBUGGER` makes the break decision and then calls the
two-parameter `_ExitOnFatalAssert`, after which the process is terminated with
the failure status; this is so when the break is performed (no dialog, or the
dialog answers true) and when the dialog declines it. -/
theorem _AssertMsg_fatal_break_exits {σ : Type} (P : Platform) (file : List Char) (line : Int)
    (_msg : List Char) (_executeExp : σ → σ) (st : World × σ)
    (hret : P.Log_Assert st.1.trace file line _msg = LR_DEBUGGER) :
    _AssertMsg P file line false _msg _executeExp true st =
      (((_ExitOnFatalAssert.declared file line
          (breakAtCallSite P file line _msg (st.1.emit [Event.Log_Assert file line _msg]))).1,
        _executeExp st.2),
       (_ExitOnFatalAssert.declared file line
          (breakAtCallSite P file line _msg (st.1.emit [Event.Log_Assert file line _msg]))).2) ∧
    (_AssertMsg P file line false _msg _executeExp true st).2 =
      Outcome.terminated EXIT_FAILURE ∧
    (∃ decision,
      breakAtCallSite P file line _msg (st.1.emit [Event.Log_Assert file line _msg]) =
        st.1.emit (Event.Log_Assert file line _msg :: decision) ∧
      (_AssertMsg P file line false _msg _executeExp true st).1.1 =
        st.1.emit (Event.Log_Assert file line _msg :: decision ++
          [Event.TerminateProcess EXIT_FAILURE]) ∧
      (P.ShouldUseNewAssertDialog (st.1.trace ++ [Event.Log_Assert file line _msg]) = false ∨
        P.DoNewAssertDialog (st.1.trace ++ [Event.Log_Assert file line _msg]) file line _msg =
          true →
        Event.DebuggerBreak ∈ decision) ∧
      (P.ShouldUseNewAssertDialog (st.1.trace ++ [Event.Log_Assert file line _msg]) = true →
        P.DoNewAssertDialog (st.1.trace ++ [Event.Log_Assert file line _msg]) file line _msg =
          false →
        decision = [Event.DoNewAssertDialog file line _msg])) := by
  have hm : _AssertMsg P file line false _msg _executeExp true st =
      (((_ExitOnFatalAssert.declared file line
          (breakAtCallSite P file line _msg (st.1.emit [Event.Log_Assert file line _msg]))).1,
        _executeExp st.2),
       (_ExitOnFatalAssert.declared file line
          (breakAtCallSite P file line _msg (st.1.emit [Event.Log_Assert file line _msg]))).2) := by
    simp only [_AssertMsg, hret, if_true]
  refine ⟨hm, by rw [hm]; rfl, breakAtCallSite.events P file line _msg
    (st.1.trace ++ [Event.Log_Assert file line _msg]), ?_, ?_, ?_, ?_⟩
  · rw [breakAtCallSite_eq, World.emit_emit]
    rfl
  · rw [hm, breakAtCallSite_eq]
    simp [_ExitOnFatalAssert.declared]
  · intro hc
    unfold breakAtCallSite.events
    rcases hc with hc | hc
    · simp [hc]
    · by_cases h1 : P.ShouldUseNewAssertDialog (st.1.trace ++ [Event.Log_Assert file line _msg])
          = false
      · simp [h1]
      · simp [h1, hc]
  · intro h1 h2
    simp [breakAtCallSite.events, h1, h2]

/-- C11 (witness): a fatal assert at `a.cpp`, line 7, in a fresh process; the
dialog is in use and declines the break, and the process still ends. -/
theorem _AssertMsg_fatal_break_exits_witness :
    (_AssertMsg Platform.debug "a.cpp".toList 7 false "x > 0".toList (fun (u : Unit) => u) true
      (World.init, ())).2 = Outcome.terminated EXIT_FAILURE :=
  (_AssertMsg_fatal_break_exits Platform.debug "a.cpp".toList 7 "x > 0".toList
    (fun (u : Unit) => u) (World.init, ()) rfl).2.1

/-- C12 (the code at the failing input): a failing evaluation of a fatal
`_AssertMsg` to which `Log_Assert` answers `LR_CONTINUE` returns to its caller:
the only event is the `Log_Assert` call, `_ExitOnFatalAssert` is not called and
there is no `TerminateProcess`. -/
theorem _AssertMsg_fatal_continue_returns :
    (_AssertMsg Platform.continuing "a.cpp".toList 7 false "x > 0".toList
      (fun (u : Unit) => u) true (World.init, ())).2 = Outcome.returned () ∧
    (_AssertMsg Platform.continuing "a.cpp".toList 7 false "x > 0".toList
      (fun (u : Unit) => u) true (World.init, ())).1.1.trace =
      [Event.Log_Assert "a.cpp".toList 7 "x > 0".toList] := by
  decide

/-- C13: when the condition holds, `_AssertMsg` does nothing. When it fails,
`Log_Assert` is called and answers `ret`; then the call site adds the events
`decision`, and after them the fatal variant answered `LR_DEBUGGER` goes on to
the two-parameter `_ExitOnFatalAssert` while every other evaluation returns.
`DebuggerBreak` is
among `decision` if and only if `ret` is `LR_DEBUGGER` and either
`ShouldUseNewAssertDialog` is false or `DoNewAssertDialog` answers true; the
dialog is shown if and only if `ret` is `LR_DEBUGGER` and
`ShouldUseNewAssertDialog` is true; for another `ret` nothing is added. -/
theorem _AssertMsg_break_iff {σ : Type} (P : Platform) (file : List Char) (line : Int)
    (_msg : List Char) (_executeExp : σ → σ) (_bFatal : Bool) (st : World × σ) :
    _AssertMsg P file line true _msg _executeExp _bFatal st = (st, Outcome.returned ()) ∧
    ∃ decision,
      _AssertMsg P file line false _msg _executeExp _bFatal st =
        (if P.Log_Assert st.1.trace file line _msg = LR_DEBUGGER ∧ _bFatal = true then
          (((_ExitOnFatalAssert.declared file line
              (st.1.emit (Event.Log_Assert file line _msg :: decision))).1, _executeExp st.2),
            (_ExitOnFatalAssert.declared file line
              (st.1.emit (Event.Log_Assert file line _msg :: decision))).2)
        else
          ((st.1.emit (Event.Log_Assert file line _msg :: decision), _executeExp st.2),
            Outcome.returned ())) ∧
      (Event.DebuggerBreak ∈ decision ↔
        (P.Log_Assert st.1.trace file line _msg = LR_DEBUGGER ∧
          (P.ShouldUseNewAssertDialog (st.1.trace ++ [Event.Log_Assert file line _msg]) = false ∨
            P.DoNewAssertDialog (st.1.trace ++ [Event.Log_Assert file line _msg])
              file line _msg = true))) ∧
      (Event.DoNewAssertDialog file line _msg ∈ decision ↔
        (P.Log_Assert st.1.trace file line _msg = LR_DEBUGGER ∧
          P.ShouldUseNewAssertDialog (st.1.trace ++ [Event.Log_Assert file line _msg]) = true)) ∧
      (P.Log_Assert st.1.trace file line _msg ≠ LR_DEBUGGER → decision = []) ∧
      sinkCalls decision = [] ∧ logAsserts decision = 0 := by
  refine ⟨by simp [_AssertMsg], ?_⟩
  by_cases hret : P.Log_Assert st.1.trace file line _msg = LR_DEBUGGER
  · refine ⟨breakAtCallSite.events P file line _msg
      (st.1.trace ++ [Event.Log_Assert file line _msg]), ?_, ?_, ?_, ?_, ?_, ?_⟩
    · cases _bFatal <;>
        simp [_AssertMsg, hret, breakAtCallSite_eq]
    · unfold breakAtCallSite.events
      by_cases h1 : P.ShouldUseNewAssertDialog (st.1.trace ++ [Event.Log_Assert file line _msg])
          = false
      · simp [h1, hret]
      · by_cases h2 : P.DoNewAssertDialog (st.1.trace ++ [Event.Log_Assert file line _msg])
            file line _msg = true
        · simp [h1, h2, hret]
        · simp [h1, h2, hret]
    · unfold breakAtCallSite.events
      by_cases h1 : P.ShouldUseNewAssertDialog (st.1.trace ++ [Event.Log_Assert file line _msg])
          = false
      · simp [h1, hret]
      · by_cases h2 : P.DoNewAssertDialog (st.1.trace ++ [Event.Log_Assert file line _msg])
            file line _msg = true
        · simp [h1, h2, hret]
        · simp [h1, h2, hret]
    · exact fun h => absurd hret h
    · exact (breakAtCallSite_events_quiet _ _ _ _ _).1
    · exact logAsserts_breakAtCallSite_events _ _ _ _ _
  · refine ⟨[], ?_, by simp [hret], by simp [hret], fun _ => rfl, rfl, rfl⟩
    simp [_AssertMsg, hret]

/-- C13 (witness): a failing non-fatal assert whose dialog declines: the
dialog is shown, and there is no break. -/
theorem _AssertMsg_break_iff_witness :
    (_AssertMsg Platform.debug "a.cpp".toList 7 false "x > 0".toList (fun (u : Unit) => u)
      false (World.init, ())).1.1.trace =
      [Event.Log_Assert "a.cpp".toList 7 "x > 0".toList,
        Event.DoNewAssertDialog "a.cpp".toList 7 "x > 0".toList] ∧
    (_AssertMsg Platform.debug "a.cpp".toList 7 true "x > 0".toList (fun (u : Unit) => u)
      false (World.init, ())).1.1.trace = [] := by
  have h := _AssertMsg_break_iff Platform.debug "a.cpp".toList 7 "x > 0".toList
    (fun (u : Unit) => u) false (World.init, ())
  exact ⟨by decide, by rw [h.1]; rfl⟩

/-! ### Spew groups -/

theorem find_SpewActivate (n : List Char) (l : Int) (groups : SpewGroups) (m : List Char) :
    ((SpewActivate n l groups).find? (fun e => decide (e.1 = m))).map Prod.snd =
      if n = m then some l else (groups.find? (fun e => decide (e.1 = m))).map Prod.snd := by
  induction groups with
  | nil =>
    by_cases h : n = m
    · simp [SpewActivate, h]
    · simp [SpewActivate, h]
  | cons e rest ih =>
    by_cases h1 : e.1 = n
    · by_cases h2 : n = m
      · simp [SpewActivate, h1, h2]
      · have h3 : ¬ e.1 = m := fun h => h2 (h1 ▸ h)
        simp [SpewActivate, h1, h2, h3]
    · by_cases h3 : e.1 = m
      · have h2 : ¬ n = m := fun h => h1 (h ▸ h3)
        simp only [SpewActivate, h1, if_false]
        simp [List.find?_cons, h3, h2]
      · simp only [SpewActivate, h1, if_false, List.find?_cons, h3, decide_False]
        exact ih

theorem find_foldl_SpewActivate (name : List Char) (acts : List (List Char × Int))
    (groups : SpewGroups) (r : Option Int)
    (h : (groups.find? (fun e => decide (e.1 = name))).map Prod.snd = r) :
    ((acts.foldl (fun groups a => SpewActivate a.1 a.2 groups) groups).find?
        (fun e => decide (e.1 = name))).map Prod.snd =
      acts.foldl (fun r a => if a.1 = name then some a.2 else r) r := by
  induction acts generalizing groups r with
  | nil => simpa using h
  | cons a acts ih =>
    simp only [List.foldl_cons]
    apply ih
    rw [find_SpewActivate, h]

theorem IsSpewActive_eq (name : List Char) (level : Int) (groups : SpewGroups) :
    IsSpewActive name level groups =
      match (groups.find? (fun e => decide (e.1 = name))).map Prod.snd with
      | some L => decide (level ≤ L)
      | none => false := by
  unfold IsSpewActive
  cases groups.find? (fun e => decide (e.1 = name)) <;> rfl

theorem registered_of_never (name : List Char) (acts : List (List Char × Int))
    (r : Option Int) (h : ∀ a ∈ acts, a.1 ≠ name) :
    acts.foldl (fun r a => if a.1 = name then some a.2 else r) r = r := by
  induction acts generalizing r with
  | nil => rfl
  | cons a acts ih =>
    have ha : ¬ a.1 = name := h a (List.mem_cons_self _ _)
    simp only [List.foldl_cons, ha, if_false]
    exact ih r (fun x hx => h x (List.mem_cons_of_mem _ hx))

/-- C14: after any run of `SpewActivate` calls, `IsSpewActive(name, level)` is
true exactly when a level `L` is registered for that very name, the one of the
last `SpewActivate` made for it, and `L >= level`; a name never activated is
inactive at every level; an activation replaces the level registered before;
after `SpewActivate("physics", 2)` the levels 0, 1 and 2 are active and 3 is
not, and `Physics` is another name. -/
theorem IsSpewActive_iff (acts : List (List Char × Int)) (name : List Char) (level L : Int) :
    (IsSpewActive name level (SpewActivate.all acts) = true ↔
      ∃ L, registered name acts = some L ∧ level ≤ L) ∧
    ((∀ a ∈ acts, a.1 ≠ name) → IsSpewActive name level (SpewActivate.all acts) = false) ∧
    IsSpewActive name level (SpewActivate.all (acts ++ [(name, L)])) = decide (level ≤ L) ∧
    IsSpewActive "physics".toList 0 (SpewActivate.all [("physics".toList, 2)]) = true ∧
    IsSpewActive "physics".toList 1 (SpewActivate.all [("physics".toList, 2)]) = true ∧
    IsSpewActive "physics".toList 2 (SpewActivate.all [("physics".toList, 2)]) = true ∧
    IsSpewActive "physics".toList 3 (SpewActivate.all [("physics".toList, 2)]) = false ∧
    IsSpewActive "Physics".toList 0 (SpewActivate.all [("physics".toList, 2)]) = false := by
  have hreg : ((SpewActivate.all acts).find? (fun e => decide (e.1 = name))).map Prod.snd =
      registered name acts :=
    find_foldl_SpewActivate name acts [] none rfl
  refine ⟨?_, ?_, ?_, by decide, by decide, by decide, by decide, by decide⟩
  · rw [IsSpewActive_eq, hreg]
    cases registered name acts with
    | none => simp
    | some L0 => simp
  · intro h
    rw [IsSpewActive_eq, hreg, registered, registered_of_never name acts none h]
  · have h2 : ((SpewActivate.all (acts ++ [(name, L)])).find?
        (fun e => decide (e.1 = name))).map Prod.snd = some L := by
      rw [SpewActivate.all, find_foldl_SpewActivate name (acts ++ [(name, L)]) [] none rfl]
      simp [List.foldl_append]
    rw [IsSpewActive_eq, h2]

/-! ### The buffer filled to its last cell -/

theorem Buffer.cstr_unterminated (l : List Char) (rest : Buffer) (h : NUL ∉ l) :
    Buffer.cstr (l.map some ++ none :: rest) = none := by
  induction l with
  | nil => rfl
  | cons c l ih =>
    have hc : c ≠ NUL := fun e => h (e ▸ List.mem_cons_self _ _)
    have hl : NUL ∉ l := fun e => h (List.mem_cons_of_mem _ e)
    simp [Buffer.cstr, hc, ih hl]

theorem _sntprintf_eq (buf : Buffer) (off count : Nat) (text : List Char)
    (h : text.length = count) :
    _sntprintf buf off count text = (buf.store off text, (text.length : Int)) := by
  simp [_sntprintf, h]

theorem _SpewMessageType.write_full (text : List Char) (f : Option (List Char)) (l : Int)
    (h : text.length = 5019) :
    _SpewMessageType.write SPEW_MESSAGE f l text = some (text.map some ++ [none], 5019) := by
  have n0 : ¬ ((0 : Int) = -1) := by decide
  have h3 : ¬ ((text.length : Int) = -1) := by omega
  have h4 : ((0 : Int) + (text.length : Int)).toNat = 5019 := by omega
  have h5 : List.drop text.length Buffer.fresh = [none] := by
    rw [h, Buffer.fresh, List.drop_replicate]
    rfl
  have hne : ¬ (SPEW_MESSAGE = SPEW_ASSERT) := by decide
  simp only [_SpewMessageType.write, hne, if_false, n0, Int.toNat_zero]
  rw [_sntprintf_eq _ _ _ _ (by omega)]
  simp only [h3, if_false, h4, Buffer.store_fresh, h5]

/-- C15: for a kind other than `SPEW_ASSERT`, a rendered message that the
bounded write stores with its NUL (fewer than 5019 characters) reaches the sink
as it is, without a location in front and without a line end, whatever path and
line are stored. -/
theorem _SpewMessageType_plain_text (P : Platform) (spewType : SpewType_t)
    (pMsgFormat rendered : List Char) (w : World) (f : Option (List Char)) (l : Int)
    (ht : spewType ≠ SPEW_ASSERT) (hfit : rendered.length < 5019) (hm : NUL ∉ rendered) :
    sinkCalls (_SpewMessageType P spewType pMsgFormat rendered w).1.trace =
      sinkCalls w.trace ++ [(w.s_SpewOutputFunc.addr, spewType, rendered)] ∧
    sinkCalls (_SpewMessageType P spewType pMsgFormat rendered
        { w with s_pFileName := f, s_Line := l }).1.trace =
      sinkCalls w.trace ++ [(w.s_SpewOutputFunc.addr, spewType, rendered)] := by
  have key : ∀ w0 : World, sinkCalls (_SpewMessageType P spewType pMsgFormat rendered w0).1.trace =
      sinkCalls w0.trace ++ [(w0.s_SpewOutputFunc.addr, spewType, rendered)] := by
    intro w0
    have hloc : location spewType w0 = [] := by simp [location, ht]
    have hfits : (location spewType w0).length + rendered.length < 5019 := by
      rw [hloc]
      simpa using hfit
    obtain ⟨pre, hq, _, hr⟩ := _SpewMessageType_fits P spewType pMsgFormat rendered w0 hfits
    have htext : formatted spewType rendered w0 = rendered := by
      simp only [formatted, hloc, lineEnd, ht, if_false, List.nil_append, List.append_nil]
      exact cstring_eq_self hm
    rw [hr, World.emit_trace, sinkCalls_fits _ hq, htext]
  exact ⟨key w, key { w with s_pFileName := f, s_Line := l }⟩

/-- C15 (witness): a `SPEW_LOG` message sent after `_SpewInfo` stored a path
and a line. -/
theorem _SpewMessageType_plain_text_witness :
    sinkCalls (_SpewMessageType Platform.debug SPEW_LOG "%s".toList "tick".toList
        (_SpewInfo SPEW_ASSERT "a.cpp".toList 7 World.init)).1.trace =
      [(0, SPEW_LOG, "tick".toList)] :=
  (_SpewMessageType_plain_text Platform.debug SPEW_LOG "%s".toList "tick".toList
    (_SpewInfo SPEW_ASSERT "a.cpp".toList 7 World.init) none 0
    (by decide) (by decide) (by decide)).1

/-- C16 (the code at the failing input): for a `SPEW_MESSAGE` whose rendering
has 5019 characters the bounded write succeeds with `len = 5019`, which is not
below `5020 / 1 - 1`, and leaves the 5020 cells without a NUL; in a build with
`DBGFLAG_ASSERT` the `Assert` of line 136 fails and is reported, and the sink
would then read past the buffer. -/
theorem _SpewMessageType_fills_buffer :
    (∃ buf, _SpewMessageType.write SPEW_MESSAGE World.init.s_pFileName World.init.s_Line
        (List.replicate 5019 'a') = some (buf, 5019) ∧
      buf.length = 5020 ∧ buf.cstr = none) ∧
    ¬ (5019 < 5020 / 1 - 1) ∧
    (_SpewMessageType Platform.debug SPEW_MESSAGE "%s".toList (List.replicate 5019 'a')
      World.init).2 = Outcome.undefined ∧
    Event.Log_Assert "spew.cpp".toList 136
        ("Assertion Failed: ".toList ++
          "(uint)len < sizeof(pTempBuffer) / sizeof(pTempBuffer[0]) - 1".toList) ∈
      (_SpewMessageType Platform.debug SPEW_MESSAGE "%s".toList (List.replicate 5019 'a')
        World.init).1.trace := by
  have hlen : (List.replicate 5019 'a').length = 5019 := List.length_replicate _ _
  have hnul : NUL ∉ List.replicate 5019 'a' := by
    intro h
    exact absurd (List.eq_of_mem_replicate h) (by decide)
  have hw := _SpewMessageType.write_full (List.replicate 5019 'a') World.init.s_pFileName
    World.init.s_Line hlen
  have hc : Buffer.cstr ((List.replicate 5019 'a').map some ++ [none]) = none :=
    Buffer.cstr_unterminated _ [] hnul
  have h105 : Assert Platform.debug 105 "_tcslen(pMsgFormat) < sizeof(pTempBuffer)"
      (decide ("%s".toList.length < 5020)) World.init = World.init := rfl
  have h125 : Assert Platform.debug 125 "len * sizeof(*pMsgFormat) < sizeof(pTempBuffer)"
      (decide (5019 * 1 < 5020)) World.init = World.init := rfl
  have hne : ¬ (SPEW_MESSAGE = SPEW_ASSERT) := by decide
  have hr : _SpewMessageType Platform.debug SPEW_MESSAGE "%s".toList (List.replicate 5019 'a')
      World.init =
      (Assert Platform.debug 137 "s_SpewOutputFunc" true
        (Assert Platform.debug 136 "(uint)len < sizeof(pTempBuffer) / sizeof(pTempBuffer[0]) - 1"
          (decide (5019 < 5020 / 1 - 1)) World.init), Outcome.undefined) := by
    simp only [_SpewMessageType, _SpewMessageType.dispatch, h105, hw, h125,
      _SpewMessageType.newline, hne, if_false, hc]
  refine ⟨⟨_, hw, by rw [List.length_append, List.length_map, hlen]; rfl, hc⟩, by decide,
    by rw [hr], ?_⟩
  rw [hr]
  decide

/-- C17: `_ExitOnFatalAssert` never returns to its caller. Unless the fatal
message fills the buffer to its last cell exactly, where `spew.cpp` has no
defined behaviour, it ends the process with `TerminateProcess(...,
EXIT_FAILURE)` as its last act, after one dispatch attempt under the stored
kind: when the message fits, the installed sink is called exactly once, with
the stored kind and the formatted message, and whatever it answers the process
ends; when formatting fails the sink is not called and the process ends all
the same. For a stored kind other than `SPEW_ASSERT` the text is the message
itself. -/
theorem _ExitOnFatalAssert_one_attempt (P : Platform) (pFile : List Char) (line : Int)
    (w : World)
    (hb : (location w.s_SpewType w).length + (fatalMessage pFile line).length ≠ 5019) :
    (∀ v, (_ExitOnFatalAssert P pFile line w).2 ≠ Outcome.returned v) ∧
    (_ExitOnFatalAssert P pFile line w).2 = Outcome.terminated EXIT_FAILURE ∧
    (∃ before, (_ExitOnFatalAssert P pFile line w).1 =
      w.emit (before ++ [Event.TerminateProcess EXIT_FAILURE])) ∧
    ((location w.s_SpewType w).length + (fatalMessage pFile line).length < 5019 →
      sinkCalls (_ExitOnFatalAssert P pFile line w).1.trace =
        sinkCalls w.trace ++ [(w.s_SpewOutputFunc.addr, w.s_SpewType,
          formatted w.s_SpewType (fatalMessage pFile line) w)]) ∧
    (5019 < (location w.s_SpewType w).length + (fatalMessage pFile line).length →
      sinkCalls (_ExitOnFatalAssert P pFile line w).1.trace = sinkCalls w.trace) ∧
    (w.s_SpewType ≠ SPEW_ASSERT → NUL ∉ pFile →
      formatted w.s_SpewType (fatalMessage pFile line) w =
        "Fatal assert failed: ".toList ++ pFile ++ ", line ".toList ++ itoa line ++
          ".  Application exiting.\n".toList) := by
  obtain ⟨before, hx⟩ := _ExitOnFatalAssert_exits P pFile line w hb
  refine ⟨fun v => _ExitOnFatalAssert_never_returns P pFile line w v, by rw [hx],
    ⟨before, by rw [hx]⟩, ?_, ?_, ?_⟩
  · intro h
    obtain ⟨pre, mid, hq, hmid, hr⟩ := _ExitOnFatalAssert_fits P pFile line w h
    rw [hr]
    simp [sinkCalls_append, sinkCalls, hq.1, hmid, sinkCalls_printf]
  · intro h
    obtain ⟨pre, hq, hr⟩ := _ExitOnFatalAssert_overflow P pFile line w h
    rw [hr]
    simp [sinkCalls_append, sinkCalls, hq.1]
  · intro ht hp
    have hnul : NUL ∉ fatalMessage pFile line := by
      have h1 : NUL ∉ "Fatal assert failed: ".toList := by decide
      have h2 : NUL ∉ ", line ".toList := by decide
      have h3 : NUL ∉ ".  Application exiting.\n".toList := by decide
      have h4 := itoa_no_NUL line
      simp only [fatalMessage, List.mem_append, not_or]
      exact ⟨⟨⟨⟨h1, hp⟩, h2⟩, h4⟩, h3⟩
    simp only [formatted, location, lineEnd, ht, if_false, List.nil_append, List.append_nil]
    exact cstring_eq_self hnul

/-- C17 (witness): in a fresh process, whose stored kind is `SPEW_MESSAGE` and
whose sink is `DefaultSpewFunc`, `_ExitOnFatalAssert("a.cpp", 7)` calls the
sink once and ends the process. -/
theorem _ExitOnFatalAssert_one_attempt_witness :
    (_ExitOnFatalAssert Platform.debug "a.cpp".toList 7 World.init).2 =
      Outcome.terminated EXIT_FAILURE ∧
    sinkCalls (_ExitOnFatalAssert Platform.debug "a.cpp".toList 7 World.init).1.trace =
      [(0, SPEW_MESSAGE, "Fatal assert failed: a.cpp, line 7.  Application exiting.\n".toList)] := by
  have h := _ExitOnFatalAssert_one_attempt Platform.debug "a.cpp".toList 7 World.init
    (by decide)
  refine ⟨h.2.1, ?_⟩
  rw [h.2.2.2.1 (by decide), h.2.2.2.2.2 (by decide) (by decide)]
  decide

/-! ### `CDbgFmtMsg` -/

theorem Buffer.store_last_cstr (t : List Char) (rest : Buffer) (ht : t.length ≤ 255)
    (hterm : t.length < 255 → ∃ r, rest = some NUL :: r) :
    Buffer.cstr (Buffer.store (t.map some ++ rest) 255 [NUL]) = some (cstring t) := by
  have h1 : List.take 255 (t.map some) = t.map some :=
    List.take_of_length_le (by simpa using ht)
  unfold Buffer.store
  rw [List.take_append_eq_append_take, h1, List.length_map]
  by_cases hl : t.length < 255
  · obtain ⟨r, hr⟩ := hterm hl
    obtain ⟨k, hk⟩ : ∃ k, 255 - t.length = k + 1 := ⟨254 - t.length, by omega⟩
    rw [hr, hk, List.take_succ_cons]
    simp only [List.append_assoc, List.cons_append]
    exact Buffer.cstr_terminated t _
  · have h0 : 255 - t.length = 0 := by omega
    rw [h0, List.take_zero]
    simp only [List.append_nil, List.map_cons, List.map_nil, List.append_assoc,
      List.singleton_append]
    exact Buffer.cstr_terminated t _

theorem CDbgFmtMsg.str_eq (POSIX : Bool) (rendered : List Char) :
    CDbgFmtMsg.str POSIX rendered =
      some (cstring (rendered.take (if POSIX = true then 254 else 255))) := by
  unfold CDbgFmtMsg.str CDbgFmtMsg Tier0Internal_vsntprintf
  have hfresh : ∀ data : List Char,
      Buffer.store (List.replicate 256 none) 0 data =
        data.map some ++ (List.replicate 256 (none : Option Char)).drop data.length := by
    intro data
    exact Buffer.store_end [] data (List.replicate 256 none)
  cases POSIX with
  | true =>
    simp only [if_true, vsnprintf, hfresh, List.map_append, List.append_assoc]
    have hn : ¬ (256 - 1 = 0) := by decide
    simp only [hn, if_false]
    apply Buffer.store_last_cstr
    · simp only [List.length_take]
      omega
    · intro _
      exact ⟨_, rfl⟩
  | false =>
    simp only [Bool.false_eq_true, if_false, _sntprintf]
    by_cases h1 : rendered.length < 256 - 1
    · have ht : rendered.take 255 = rendered := List.take_of_length_le (by omega)
      simp only [h1, if_true, hfresh, List.map_append, List.append_assoc, ht]
      apply Buffer.store_last_cstr
      · omega
      · intro _
        exact ⟨_, rfl⟩
    · by_cases h2 : rendered.length = 256 - 1
      · have ht : rendered.take 255 = rendered := List.take_of_length_le (by omega)
        simp only [h1, h2, if_true, if_false, hfresh, ht]
        apply Buffer.store_last_cstr
        · omega
        · intro hlt
          omega
      · simp only [h1, h2, if_false, hfresh]
        apply Buffer.store_last_cstr
        · simp only [List.length_take]
          omega
        · intro hlt
          simp only [List.length_take] at hlt
          omega

theorem Buffer.store_length (buf : Buffer) (off : Nat) (data : List Char)
    (h : off + data.length ≤ buf.length) : (Buffer.store buf off data).length = buf.length := by
  simp only [Buffer.store, List.length_append, List.length_take, List.length_map,
    List.length_drop]
  omega

theorem CDbgFmtMsg.length_eq (POSIX : Bool) (rendered : List Char) :
    (CDbgFmtMsg POSIX rendered).length = 256 := by
  have h0 : (List.replicate 256 (none : Option Char)).length = 256 := List.length_replicate _ _
  have key : ∀ data : List Char, data.length ≤ 256 →
      (Buffer.store (Buffer.store (List.replicate 256 none) 0 data) (256 - 1) [NUL]).length
        = 256 := by
    intro data hd
    have h1 : (Buffer.store (List.replicate 256 none) 0 data).length = 256 := by
      rw [Buffer.store_length _ _ _ (by rw [h0]; omega), h0]
    rw [Buffer.store_length _ _ _ (by rw [h1]; simp), h1]
  unfold CDbgFmtMsg Tier0Internal_vsntprintf
  cases POSIX with
  | true =>
    have hn : ¬ (256 - 1 = 0) := by decide
    simp only [if_true, vsnprintf, hn, if_false]
    apply key
    simp only [List.length_append, List.length_take, List.length_singleton]
    omega
  | false =>
    simp only [Bool.false_eq_true, if_false, _sntprintf]
    split_ifs with h1 h2
    · apply key
      simp only [List.length_append, List.length_singleton]
      omega
    · apply key
      omega
    · apply key
      simp only [List.length_take]
      omega

/-- C18 (counterexample): in the Windows build a rendering of 255 characters,
one more than the 254 of the claim, is held whole: the string is the rendering
itself and not a proper prefix of it. -/
theorem CDbgFmtMsg_holds_counterexample :
    CDbgFmtMsg.str false (List.replicate 255 'a') = some (List.replicate 255 'a') ∧
    (List.replicate 255 'a').length = 255 ∧
    ¬ ((List.replicate 255 'a').length ≤ 254) := by
  have hlen : (List.replicate 255 'a').length = 255 := List.length_replicate _ _
  have hnul : NUL ∉ List.replicate 255 'a' := by
    intro h
    exact absurd (List.eq_of_mem_replicate h) (by decide)
  refine ⟨?_, hlen, by rw [hlen]; decide⟩
  rw [CDbgFmtMsg.str_eq]
  simp only [Bool.false_eq_true, if_false]
  rw [List.take_of_length_le (by rw [hlen]), cstring_eq_self hnul]

/-- C18 (amended): the string held by a `CDbgFmtMsg` is NUL-terminated inside
the 256 cells of `m_szBuf` and has at most 255 characters: it is the first 255
characters of the rendering in the Windows build and the first 254 in the
POSIX build; so it equals the rendering when that has at most 255 (254)
characters and is a proper prefix of it otherwise. The constructor reports
nothing: it has no result other than the buffer. -/
theorem CDbgFmtMsg_holds (POSIX : Bool) (rendered : List Char) (h : NUL ∉ rendered) :
    (CDbgFmtMsg POSIX rendered).length = 256 ∧
    CDbgFmtMsg.str POSIX rendered =
      some (rendered.take (if POSIX = true then 254 else 255)) ∧
    (rendered.take (if POSIX = true then 254 else 255)).length ≤ 255 ∧
    (rendered.length ≤ (if POSIX = true then 254 else 255) →
      CDbgFmtMsg.str POSIX rendered = some rendered) ∧
    ((if POSIX = true then 254 else 255) < rendered.length →
      ∃ cut, cut ≠ [] ∧
        rendered = rendered.take (if POSIX = true then 254 else 255) ++ cut) := by
  have hstr : CDbgFmtMsg.str POSIX rendered =
      some (rendered.take (if POSIX = true then 254 else 255)) := by
    rw [CDbgFmtMsg.str_eq]
    have hn : NUL ∉ rendered.take (if POSIX = true then 254 else 255) :=
      fun hm => h (List.mem_of_mem_take hm)
    rw [cstring_eq_self hn]
  refine ⟨CDbgFmtMsg.length_eq POSIX rendered, hstr, ?_, ?_, ?_⟩
  · rw [List.length_take]
    cases POSIX <;> simp
  · intro hle
    rw [hstr, List.take_of_length_le hle]
  · intro hlt
    refine ⟨rendered.drop (if POSIX = true then 254 else 255), ?_, ?_⟩
    · intro hnil
      have hl := congrArg List.length hnil
      simp only [List.length_drop, List.length_nil] at hl
      omega
    · exact (List.take_append_drop _ _).symm

/-- C18 (witness): the message of `AssertMsg1(x > 0, "x is %d", -3)` in the
Windows build. -/
theorem CDbgFmtMsg_holds_witness :
    CDbgFmtMsg.str false "x is -3".toList = some "x is -3".toList :=
  (CDbgFmtMsg_holds false "x is -3".toList (by decide)).2.2.2.1 (by decide)

end Tier0
